import Mathlib

/-!
# Docker Report: record parsing and report rendering

A shallow embedding of `src/docker_report.cpp` (class `DockerReporter`).

* A `std::string` is a sequence of `char`s, modelled as `List Char`
  (one list element per `char`).
* A `std::istringstream` is modelled by its unread characters.
* `std::cout` / the report file are modelled by the text written to them.
* `executeCommand` runs an external process; its outcome (the captured
  output, or the exception it throws) is a parameter of the model.
-/

namespace DockerReport

/-- A `std::string`: a sequence of `char`s. -/
abbrev Str := List Char

/-! ## Standard-library operations used by the source -/

/-- The call `std::getline(stream, out, delim)` on a string stream whose unread
characters are `s`.  Characters are extracted until the end of the stream or
until `delim`, which is extracted and discarded.  The call fails (the stream
converts to `false`) exactly when no character at all is extracted, that is
when nothing is left to read; otherwise it succeeds with the characters read
before the delimiter and leaves the characters after the delimiter unread. -/
def getline (delim : Char) (s : Str) : Option (Str × Str) :=
  match s with
  | [] => none
  | _ :: _ => some (s.takeWhile (· != delim), (s.dropWhile (· != delim)).tail)

/-- The call `s.substr(0, n)`: the first `n` characters of `s`, or all of `s`
when it is shorter. -/
def substr0 (s : Str) (n : Nat) : Str := s.take n

/-- Stream output `std::left << std::setw(w) << s`: `s` is written in full and,
when it is shorter than `w`, followed by fill characters (spaces) up to `w`. -/
def setwLeft (w : Nat) (s : Str) : Str := s ++ List.replicate (w - s.length) ' '

/-- First position at which `pat` occurs in `s`, counted from `i`; the search of
`std::string::find`. -/
def findFrom (pat : Str) : Str → Nat → Option Nat
  | [], i => if pat.isPrefixOf [] then some i else none
  | c :: cs, i => if pat.isPrefixOf (c :: cs) then some i else findFrom pat cs (i + 1)

/-- The call `s.find(pat)`: `none` stands for `std::string::npos`. -/
def find (s pat : Str) : Option Nat := findFrom pat s 0

/-! ## Data model -/

/-- The struct `ContainerInfo`. -/
structure ContainerInfo where
  id : Str
  name : Str
  image : Str
  status : Str
  ports : Str
  deriving DecidableEq, Repr

/-- The struct `ImageInfo`. -/
structure ImageInfo where
  repository : Str
  tag : Str
  imageId : Str
  created : Str
  size : Str
  deriving DecidableEq, Repr

/-- The mutable members of `DockerReporter`. -/
structure DockerReporter where
  containers : List ContainerInfo
  images : List ImageInfo
  deriving DecidableEq, Repr

/-! ## Record parser -/

/-- Body of the `while` loop of `parseContainers` for one line: an empty line is
skipped; otherwise four tab-delimited reads must succeed, a fifth read fills
`ports` (which stays empty when that read fails), and a record is appended. -/
def parseContainerLine (line : Str) : Option ContainerInfo :=
  if line.isEmpty then none
  else
    match getline '\t' line with
    | none => none
    | some (id, r1) =>
      match getline '\t' r1 with
      | none => none
      | some (name, r2) =>
        match getline '\t' r2 with
        | none => none
        | some (image, r3) =>
          match getline '\t' r3 with
          | none => none
          | some (status, r4) =>
            let ports : Str :=
              match getline '\t' r4 with
              | some (p, _) => p
              | none => []
            some ⟨id, name, image, status, ports⟩

/-- The loop `while (std::getline(stream, line))` of `parseContainers`, run on
the unread characters `s` with the records collected so far in `acc`. -/
def containersLoop : Nat → Str → List ContainerInfo → List ContainerInfo
  | 0, _, acc => acc
  | fuel + 1, s, acc =>
    match getline '\n' s with
    | none => acc
    | some (line, rest) =>
      match parseContainerLine line with
      | some c => containersLoop fuel rest (acc ++ [c])
      | none => containersLoop fuel rest acc

/-- The `try` block of `parseContainers` on the command output `output`: the
first line is read and dropped, the remaining lines go through the loop.  Every
iteration consumes at least one character, so `rest.length + 1` iterations
always reach the failing `getline` that ends the loop. -/
def parseContainersText (output : Str) : List ContainerInfo :=
  match getline '\n' output with
  | none => []
  | some (_, rest) => containersLoop (rest.length + 1) rest []

/-- Body of the `while` loop of `parseImages` for one line: an empty line is
skipped; otherwise five tab-delimited reads must all succeed. -/
def parseImageLine (line : Str) : Option ImageInfo :=
  if line.isEmpty then none
  else
    match getline '\t' line with
    | none => none
    | some (repo, r1) =>
      match getline '\t' r1 with
      | none => none
      | some (tag, r2) =>
        match getline '\t' r2 with
        | none => none
        | some (id, r3) =>
          match getline '\t' r3 with
          | none => none
          | some (created, r4) =>
            match getline '\t' r4 with
            | none => none
            | some (size, _) => some ⟨repo, tag, id, created, size⟩

/-- The loop `while (std::getline(stream, line))` of `parseImages`. -/
def imagesLoop : Nat → Str → List ImageInfo → List ImageInfo
  | 0, _, acc => acc
  | fuel + 1, s, acc =>
    match getline '\n' s with
    | none => acc
    | some (line, rest) =>
      match parseImageLine line with
      | some i => imagesLoop fuel rest (acc ++ [i])
      | none => imagesLoop fuel rest acc

/-- The `try` block of `parseImages` on the command output `output`. -/
def parseImagesText (output : Str) : List ImageInfo :=
  match getline '\n' output with
  | none => []
  | some (_, rest) => imagesLoop (rest.length + 1) rest []

/-- The method `parseContainers`: `containers` is cleared, then rebuilt from the
output of the listing command; when `executeCommand` throws, the exception is
caught and `containers` stays empty. -/
def parseContainers (exec : Except String Str) (r : DockerReporter) : DockerReporter :=
  match exec with
  | .ok output => { r with containers := parseContainersText output }
  | .error _ => { r with containers := [] }

/-- The method `parseImages`: as `parseContainers`, for `images`. -/
def parseImages (exec : Except String Str) (r : DockerReporter) : DockerReporter :=
  match exec with
  | .ok output => { r with images := parseImagesText output }
  | .error _ => { r with images := [] }


/-! ## Report renderer -/

/-- The rule `-------------------------------------------------` closing each
section title. -/
def sectionRule : Str := "-------------------------------------------------\n".toList

/-- Title line of the container section (the pictograph of the literal is kept
as one character; no property depends on its length). -/
def containerTitle : Str := "📦 CONTAINER REPORT\n".toList

/-- Title line of the image section. -/
def imageTitle : Str := "🖼️  IMAGE REPORT\n".toList

/-- The header row of the container table. -/
def containerHeader : Str :=
  setwLeft 12 "ID".toList ++ setwLeft 20 "NAME".toList ++ setwLeft 20 "IMAGE".toList ++
    setwLeft 15 "STATUS".toList ++ "PORTS\n".toList

/-- One data row of the container table (body of the `for` loop of
`displayContainerReport`). -/
def containerRow (c : ContainerInfo) : Str :=
  setwLeft 12 (substr0 c.id 11) ++ setwLeft 20 (substr0 c.name 19) ++
    setwLeft 20 (substr0 c.image 19) ++ setwLeft 15 (substr0 c.status 14) ++
    c.ports ++ "\n".toList

/-- The text written to `std::cout` by `displayContainerReport`. -/
def displayContainerReport (containers : List ContainerInfo) : Str :=
  containerTitle ++ sectionRule ++
    (if containers.isEmpty then "No containers found.\n\n".toList
     else
      containerHeader ++ (List.replicate 80 '-' ++ "\n".toList) ++
        (containers.map containerRow).flatten ++ "\n".toList)

/-- The header row of the image table; the last item, written under
`std::setw(10)`, is the string `"SIZE\n"`. -/
def imageHeader : Str :=
  setwLeft 25 "REPOSITORY".toList ++ setwLeft 15 "TAG".toList ++
    setwLeft 12 "IMAGE ID".toList ++ setwLeft 10 "SIZE\n".toList

/-- One data row of the image table (body of the `for` loop of
`displayImageReport`). -/
def imageRow (i : ImageInfo) : Str :=
  setwLeft 25 (substr0 i.repository 24) ++ setwLeft 15 (substr0 i.tag 14) ++
    setwLeft 12 (substr0 i.imageId 11) ++ i.size ++ "\n".toList

/-- The text written to `std::cout` by `displayImageReport`. -/
def displayImageReport (images : List ImageInfo) : Str :=
  imageTitle ++ sectionRule ++
    (if images.isEmpty then "No images found.\n\n".toList
     else
      imageHeader ++ (List.replicate 70 '-' ++ "\n".toList) ++
        (images.map imageRow).flatten ++ "\n".toList)

/-- The counting loop of `displaySystemSummary`: the pair
`(runningContainers, stoppedContainers)` after the loop.  The counters are
`int`s starting at 0 and only incremented; they are modelled as natural numbers
(the increments stay below `2^31` for any listing of fewer than `2^31` rows). -/
def countStatus (containers : List ContainerInfo) : Nat × Nat :=
  containers.foldl
    (fun (acc : Nat × Nat) c =>
      if find c.status "Up".toList != none then (acc.1 + 1, acc.2) else (acc.1, acc.2 + 1))
    (0, 0)

/-- Decimal text of a number, as written by `operator<<`. -/
def showNat (n : Nat) : Str := (Nat.repr n).toList

/-- The version line of `displaySystemSummary`: the output of the version
query when `executeCommand` returns, the fixed text when it throws. -/
def versionLine (version : Except String Str) : Str :=
  match version with
  | .ok dockerVersion => "Docker Version: ".toList ++ dockerVersion
  | .error _ => "Docker Version: Unable to determine\n".toList

/-- The text written to `std::cout` by `displaySystemSummary`; `version` is the
outcome of the version query. -/
def displaySystemSummary (containers : List ContainerInfo) (images : List ImageInfo)
    (version : Except String Str) : Str :=
  "📊 SYSTEM SUMMARY\n".toList ++ sectionRule ++
    "Total Containers: ".toList ++ showNat containers.length ++ "\n".toList ++
    "  - Running: ".toList ++ showNat (countStatus containers).1 ++ "\n".toList ++
    "  - Stopped: ".toList ++ showNat (countStatus containers).2 ++ "\n".toList ++
    "Total Images: ".toList ++ showNat images.length ++ "\n\n".toList ++
    versionLine version ++ "\n".toList

/-! ## File report -/

/-- The rule of 49 `=` characters used by the banner and by the report file. -/
def doubleRule : Str := List.replicate 49 '='

/-- Body of the container loop of `generateReportFile`: what one record adds to
the report file. -/
def reportContainerEntry (c : ContainerInfo) : Str :=
  "- ".toList ++ c.name ++ " (".toList ++ c.id ++ ")\n".toList ++
    ("  Image: ".toList ++ c.image ++ "\n".toList) ++
    ("  Status: ".toList ++ c.status ++ "\n".toList) ++
    (if !c.ports.isEmpty then "  Ports: ".toList ++ c.ports ++ "\n".toList else []) ++
    "\n".toList

/-- Body of the image loop of `generateReportFile`. -/
def reportImageEntry (i : ImageInfo) : Str :=
  "- ".toList ++ i.repository ++ ":".toList ++ i.tag ++ "\n".toList ++
    ("  ID: ".toList ++ i.imageId ++ "\n".toList) ++
    ("  Size: ".toList ++ i.size ++ "\n".toList) ++
    ("  Created: ".toList ++ i.created ++ "\n\n".toList)

/-- The text streamed into `reportFile` by `generateReportFile`, statement by
statement; `date` and `time` stand for the compile-time texts `__DATE__` and
`__TIME__`. -/
def reportFileText (date time : Str) (containers : List ContainerInfo)
    (images : List ImageInfo) : Str :=
  let f0 : Str := "Docker System Report\n".toList
  let f1 := f0 ++ "Generated on: ".toList ++ date ++ " ".toList ++ time ++ "\n".toList
  let f2 := f1 ++ (doubleRule ++ "\n\n".toList)
  let f3 := f2 ++ "CONTAINERS (".toList ++ showNat containers.length ++ " total):\n".toList
  let f4 := containers.foldl (fun f c => f ++ reportContainerEntry c) f3
  let f5 := f4 ++ "IMAGES (".toList ++ showNat images.length ++ " total):\n".toList
  images.foldl (fun f i => f ++ reportImageEntry i) f5

/-! ## Orchestration -/

/-- The external commands handed to `executeCommand`: `docker --version`,
`docker ps -a` with its table format, `docker images` with its table format. -/
inductive Command where
  | dockerVersion
  | dockerPs
  | dockerImages
  deriving DecidableEq, Repr

/-- What a run leaves behind: the text written to `std::cout`, the text written
to `std::cerr`, the content of `docker_report.txt` when the file was written,
and the commands executed, in order. -/
structure Output where
  out : Str
  err : Str
  file : Option Str
  commands : List Command
  deriving DecidableEq, Repr

/-- What the surroundings answer during a run: the outcome of each
`executeCommand` call (its output, or the message of the exception it throws),
whether `docker_report.txt` can be opened for writing, and the build date and
time. -/
structure Env where
  probe : Except String Str
  psOutput : Except String Str
  imagesOutput : Except String Str
  version : Except String Str
  fileOpens : Bool
  date : Str
  time : Str

/-- The method `isDockerAvailable`, on the outcome of its `docker --version`
call: the output must be non-empty; an exception gives `false`. -/
def isDockerAvailable (probe : Except String Str) : Bool :=
  match probe with
  | .ok output => !output.isEmpty
  | .error _ => false

/-- What the `catch` block of `parseContainers` writes to `std::cerr`. -/
def parseContainersErr (exec : Except String Str) : Str :=
  match exec with
  | .ok _ => []
  | .error what => "Error parsing containers: ".toList ++ what.toList ++ "\n".toList

/-- What the `catch` block of `parseImages` writes to `std::cerr`. -/
def parseImagesErr (exec : Except String Str) : Str :=
  match exec with
  | .ok _ => []
  | .error what => "Error parsing images: ".toList ++ what.toList ++ "\n".toList

/-- The method `generateReportFile`: when the file cannot be opened a
diagnostic goes to `std::cerr` and nothing is written; otherwise the report
text goes to the file and a confirmation to `std::cout`. -/
def generateReportFile (fileOpens : Bool) (date time : Str) (r : DockerReporter) : Output :=
  if !fileOpens then
    { out := [], err := "❌ Unable to create report file: docker_report.txt\n".toList,
      file := none, commands := [] }
  else
    { out := "📄 Detailed report saved to: docker_report.txt\n\n".toList, err := [],
      file := some (reportFileText date time r.containers r.images), commands := [] }

/-- The banner opening `generateReport`. -/
def reportBanner : Str :=
  (doubleRule ++ "\n".toList) ++
    "           DOCKER SYSTEM REPORT\n".toList ++
    (doubleRule ++ "\n\n".toList)

/-- The method `generateReport`, run on the reporter `r`. -/
def generateReport (env : Env) (r : DockerReporter) : Output :=
  if !isDockerAvailable env.probe then
    { out := reportBanner ++ "❌ Docker is not available on this system.\n".toList ++
        "Please install Docker to use this reporting tool.\n".toList,
      err := [], file := none, commands := [Command.dockerVersion] }
  else
    let r1 := parseContainers env.psOutput r
    let r2 := parseImages env.imagesOutput r1
    let fileResult := generateReportFile env.fileOpens env.date env.time r2
    { out := reportBanner ++ "✅ Docker is available on this system.\n\n".toList ++
        displayContainerReport r2.containers ++ displayImageReport r2.images ++
        displaySystemSummary r2.containers r2.images env.version ++ fileResult.out,
      err := parseContainersErr env.psOutput ++ parseImagesErr env.imagesOutput ++
        fileResult.err,
      file := fileResult.file,
      commands := [Command.dockerVersion, Command.dockerPs, Command.dockerImages,
        Command.dockerVersion] }

/-- The function `displayUsage`. -/
def displayUsage (programName : Str) : Str :=
  "Usage: ".toList ++ programName ++ " [OPTIONS]\n\n".toList ++
    "Docker Report - A C++ utility for Docker system reporting\n\n".toList ++
    "Options:\n".toList ++
    "  -h, --help     Show this help message\n".toList ++
    "  -v, --version  Show version information\n\n".toList ++
    "This program generates a comprehensive report of your Docker environment,\n".toList ++
    "including containers, images, and system statistics.\n\n".toList ++
    "Examples:\n".toList ++
    ("  ".toList ++ programName ++ "           # Generate full Docker report\n".toList) ++
    ("  ".toList ++ programName ++ " --help    # Show this help\n\n".toList)

/-- The function `displayVersion`. -/
def displayVersion : Str :=
  "Docker Report v1.0.0\n".toList ++
    "A C++ utility for Docker system reporting\n".toList ++
    "Built for educational purposes in GitHub Skills tutorial\n\n".toList

/-- How the call `reporter.generateReport()` inside the `try` block of `main`
ends: it returns, or an exception derived from `std::exception` escapes it with
the message `what`, or some other exception escapes it.  In each case `o` is
what the call has left behind by then. -/
inductive ReportOutcome where
  | returned (o : Output)
  | threw (o : Output) (what : Str)
  | threwOther (o : Output)

/-- The function `main` for the program name `argv[0]`, the arguments
`argv[1..]` and the way the report call ends; the result is the exit code and
what the run leaves behind. -/
def mainWith (programName : Str) (args : List Str) (report : ReportOutcome) : Nat × Output :=
  match args with
  | option :: _ =>
    if option == "-h".toList || option == "--help".toList then
      (0, { out := displayUsage programName, err := [], file := none, commands := [] })
    else if option == "-v".toList || option == "--version".toList then
      (0, { out := displayVersion, err := [], file := none, commands := [] })
    else
      (1, { out := [],
            err := "Unknown option: ".toList ++ option ++ "\n".toList ++
              "Use --help for usage information.\n".toList,
            file := none, commands := [] })
  | [] =>
    match report with
    | .returned o =>
      (0, { o with out := o.out ++ "Report generation completed successfully! ✅\n".toList })
    | .threw o what =>
      (1, { o with err := o.err ++ "❌ Error: ".toList ++ what ++ "\n".toList })
    | .threwOther o =>
      (1, { o with err := o.err ++ "❌ An unknown error occurred.\n".toList })

/-- The function `main` with the report call as modelled: a fresh
`DockerReporter` runs `generateReport`, which handles every failure of
`executeCommand` and of opening the file itself, and returns. -/
def main (programName : Str) (args : List Str) (env : Env) : Nat × Output :=
  mainWith programName args (.returned (generateReport env ⟨[], []⟩))

/-! ## Notions used to state the properties -/

/-- Reading lines one by one and keeping the results of `f`: the common shape
of the two parsing loops. -/
def linesLoop {α : Type} (f : Str → Option α) : Nat → Str → List α → List α
  | 0, _, acc => acc
  | fuel + 1, s, acc =>
    match getline '\n' s with
    | none => acc
    | some (line, rest) =>
      match f line with
      | some c => linesLoop f fuel rest (acc ++ [c])
      | none => linesLoop f fuel rest acc

/-- Lines joined by newline characters. -/
def joinLines (ls : List Str) : Str := ['\n'].intercalate ls

/-- The lines of a text that follow its first non-empty line. -/
def linesAfterFirstNonEmpty (text : Str) : List Str :=
  ((text.splitOn '\n').dropWhile (·.isEmpty)).tail

/-- A table cell as the specification words it: the first
`min (length value) (w - 1)` characters of the value, followed by spaces up to
`w` characters. -/
def truncatedCell (w : Nat) (value : Str) : Str :=
  value.take (min value.length (w - 1)) ++
    List.replicate (w - min value.length (w - 1)) ' '

/-- A status text counts as running when it holds `Up` as a substring. -/
def containsUp (status : Str) : Prop := "Up".toList <:+: status

instance (status : Str) : Decidable (containsUp status) :=
  inferInstanceAs (Decidable ("Up".toList <:+: status))

/-- No field of the container record holds a newline character. -/
def ContainerInfo.noNewline (c : ContainerInfo) : Prop :=
  '\n' ∉ c.id ∧ '\n' ∉ c.name ∧ '\n' ∉ c.image ∧ '\n' ∉ c.status ∧ '\n' ∉ c.ports

instance (c : ContainerInfo) : Decidable c.noNewline :=
  inferInstanceAs (Decidable
    ('\n' ∉ c.id ∧ '\n' ∉ c.name ∧ '\n' ∉ c.image ∧ '\n' ∉ c.status ∧ '\n' ∉ c.ports))

/-- No field of the image record holds a newline character. -/
def ImageInfo.noNewline (i : ImageInfo) : Prop :=
  '\n' ∉ i.repository ∧ '\n' ∉ i.tag ∧ '\n' ∉ i.imageId ∧ '\n' ∉ i.created ∧ '\n' ∉ i.size

instance (i : ImageInfo) : Decidable i.noNewline :=
  inferInstanceAs (Decidable
    ('\n' ∉ i.repository ∧ '\n' ∉ i.tag ∧ '\n' ∉ i.imageId ∧ '\n' ∉ i.created ∧
      '\n' ∉ i.size))

/-- The section rule, as a line. -/
def ruleLine : Str := "-------------------------------------------------".toList

/-- The container section title, as a line. -/
def containerTitleLine : Str := "📦 CONTAINER REPORT".toList

/-- The image section title, as a line. -/
def imageTitleLine : Str := "🖼️  IMAGE REPORT".toList

/-- The header row of the container table, as a line. -/
def containerHeaderLine : Str :=
  "ID          NAME                IMAGE               STATUS         PORTS".toList

/-- The header row of the image table, as a line. -/
def imageHeaderLine : Str :=
  "REPOSITORY               TAG            IMAGE ID    SIZE".toList

/-- A container row without its closing newline. -/
def containerRowLine (c : ContainerInfo) : Str :=
  truncatedCell 12 c.id ++ truncatedCell 20 c.name ++ truncatedCell 20 c.image ++
    truncatedCell 15 c.status ++ c.ports

/-- An image row without its closing newline. -/
def imageRowLine (i : ImageInfo) : Str :=
  truncatedCell 25 i.repository ++ truncatedCell 15 i.tag ++ truncatedCell 12 i.imageId ++
    i.size

/-- A container block of the file report as the specification words it: name
and id on one line, indented image and status lines, a ports line exactly when
`ports` is non-empty, then a blank line. -/
def containerBlock (c : ContainerInfo) : Str :=
  "- ".toList ++ c.name ++ " (".toList ++ c.id ++ ")\n  Image: ".toList ++ c.image ++
    "\n  Status: ".toList ++ c.status ++ "\n".toList ++
    (if c.ports = [] then [] else "  Ports: ".toList ++ c.ports ++ "\n".toList) ++
    "\n".toList

/-- An image block of the file report as the specification words it. -/
def imageBlock (i : ImageInfo) : Str :=
  "- ".toList ++ i.repository ++ ":".toList ++ i.tag ++ "\n  ID: ".toList ++ i.imageId ++
    "\n  Size: ".toList ++ i.size ++ "\n  Created: ".toList ++ i.created ++ "\n\n".toList

/-- The lines that open the file report. -/
def reportFileHeader (date time : Str) : Str :=
  "Docker System Report\nGenerated on: ".toList ++ date ++ " ".toList ++ time ++
    "\n".toList ++ doubleRule ++ "\n\n".toList

/-- The summary title, as a line. -/
def summaryTitleLine : Str := "📊 SYSTEM SUMMARY".toList

/-- The count lines of the system summary, in order. -/
def summaryCountLines (containers : List ContainerInfo) (images : List ImageInfo) :
    List Str :=
  ["Total Containers: ".toList ++ showNat containers.length,
   "  - Running: ".toList ++ showNat (countStatus containers).1,
   "  - Stopped: ".toList ++ showNat (countStatus containers).2,
   "Total Images: ".toList ++ showNat images.length]

/-! ## Lines and fields: `getline` against splitting on a delimiter -/

theorem splitOn_of_not_mem (d : Char) (s : Str) (h : d ∉ s) : s.splitOn d = [s] := by
  apply List.splitOnP_eq_single
  intro x hx hxd
  simp only [beq_iff_eq] at hxd
  exact h (hxd ▸ hx)

theorem splitOn_of_mem (d : Char) (s : Str) (h : d ∈ s) :
    s.splitOn d = s.takeWhile (· != d) :: ((s.dropWhile (· != d)).tail).splitOn d := by
  induction s with
  | nil => simp at h
  | cons c t ih =>
    by_cases hc : c = d
    · subst hc
      simp [List.splitOn, List.splitOnP_cons]
    · have ht : d ∈ t := by
        rcases List.mem_cons.mp h with h1 | h1
        · exact absurd h1.symm hc
        · exact h1
      have ih1 := ih ht
      simp only [List.splitOn] at ih1 ⊢
      rw [List.splitOnP_cons, ih1]
      simp [hc, List.takeWhile_cons, List.dropWhile_cons]

theorem splitOn_ne_nil (d : Char) (s : Str) : s.splitOn d ≠ [] :=
  List.splitOnP_ne_nil _ _

theorem getline_nil (d : Char) : getline d [] = none := rfl

theorem getline_of_not_mem (d : Char) (s : Str) (hs : s ≠ []) (h : d ∉ s) :
    getline d s = some (s, []) := by
  cases s with
  | nil => exact absurd rfl hs
  | cons c t =>
    have h1 : (c :: t).takeWhile (· != d) = c :: t := by
      rw [List.takeWhile_eq_self_iff]
      intro x hx
      simp only [bne_iff_ne, ne_eq]
      rintro rfl
      exact h hx
    have h2 : (c :: t).dropWhile (· != d) = [] := by
      rw [List.dropWhile_eq_nil_iff]
      intro x hx
      simp only [bne_iff_ne, ne_eq]
      rintro rfl
      exact h hx
    simp only [getline, h1, h2, List.tail_nil]

theorem getline_of_mem (d : Char) (s : Str) (h : d ∈ s) :
    getline d s = some (s.takeWhile (· != d), (s.dropWhile (· != d)).tail) := by
  cases s with
  | nil => simp at h
  | cons c t => rfl

theorem getline_rest_length (d : Char) (s line rest : Str)
    (h : getline d s = some (line, rest)) : rest.length < s.length := by
  cases s with
  | nil => simp [getline] at h
  | cons c t =>
    simp only [getline, Option.some.injEq, Prod.mk.injEq] at h
    rw [← h.2, List.length_tail]
    have h1 : ((c :: t).dropWhile (· != d)).length ≤ (c :: t).length :=
      (List.dropWhile_sublist _).length_le
    simp only [List.length_cons] at h1 ⊢
    omega

theorem linesLoop_nil {α : Type} (f : Str → Option α) (fuel : Nat) (acc : List α) :
    linesLoop f fuel [] acc = acc := by
  cases fuel <;> rfl

theorem linesLoop_eq {α : Type} (f : Str → Option α) (hf : f [] = none) :
    ∀ (fuel : Nat) (s : Str) (acc : List α), s.length < fuel →
      linesLoop f fuel s acc = acc ++ (s.splitOn '\n').filterMap f := by
  intro fuel
  induction fuel with
  | zero => intro s acc h; omega
  | succ n ih =>
    intro s acc h
    by_cases hs : s = []
    · subst hs
      simp [linesLoop_nil, hf]
    by_cases hm : '\n' ∈ s
    · have hg := getline_of_mem '\n' s hm
      have hlen := getline_rest_length '\n' s _ _ hg
      rw [splitOn_of_mem '\n' s hm]
      simp only [linesLoop, hg, List.filterMap_cons]
      cases hfl : f (s.takeWhile (· != '\n')) with
      | none => simp only [hfl]; exact ih _ _ (by omega)
      | some c =>
        simp only [hfl]
        rw [ih _ _ (by omega)]
        simp
    · have hg := getline_of_not_mem '\n' s hs hm
      rw [splitOn_of_not_mem '\n' s hm]
      simp only [linesLoop, hg, List.filterMap_cons, List.filterMap_nil]
      cases hfl : f s with
      | none => simp [linesLoop_nil]
      | some c => simp [linesLoop_nil]

theorem containersLoop_eq_linesLoop (fuel : Nat) (s : Str) (acc : List ContainerInfo) :
    containersLoop fuel s acc = linesLoop parseContainerLine fuel s acc := by
  induction fuel generalizing s acc with
  | zero => rfl
  | succ n ih =>
    simp only [containersLoop, linesLoop]
    cases getline '\n' s with
    | none => rfl
    | some p =>
      obtain ⟨line, rest⟩ := p
      simp only [ih]
      cases parseContainerLine line <;> rfl

theorem imagesLoop_eq_linesLoop (fuel : Nat) (s : Str) (acc : List ImageInfo) :
    imagesLoop fuel s acc = linesLoop parseImageLine fuel s acc := by
  induction fuel generalizing s acc with
  | zero => rfl
  | succ n ih =>
    simp only [imagesLoop, linesLoop]
    cases getline '\n' s with
    | none => rfl
    | some p =>
      obtain ⟨line, rest⟩ := p
      simp only [ih]
      cases parseImageLine line <;> rfl

theorem parseContainerLine_nil : parseContainerLine [] = none := rfl

theorem parseImageLine_nil : parseImageLine [] = none := rfl

/-- The text handed to the loop after the first `getline`, as lines. -/
theorem splitOn_tail_of_getline (s line rest : Str) (h : getline '\n' s = some (line, rest))
    {α : Type} (f : Str → Option α) (hf : f [] = none) :
    (rest.splitOn '\n').filterMap f = ((s.splitOn '\n').tail).filterMap f := by
  have hs : s ≠ [] := by rintro rfl; simp [getline] at h
  by_cases hm : '\n' ∈ s
  · rw [getline_of_mem '\n' s hm] at h
    simp only [Option.some.injEq, Prod.mk.injEq] at h
    rw [splitOn_of_mem '\n' s hm, List.tail_cons, h.2]
  · rw [getline_of_not_mem '\n' s hs hm] at h
    simp only [Option.some.injEq, Prod.mk.injEq] at h
    rw [splitOn_of_not_mem '\n' s hm, ← h.2]
    simp [hf]

theorem parseContainersText_eq (text : Str) :
    parseContainersText text = ((text.splitOn '\n').tail).filterMap parseContainerLine := by
  unfold parseContainersText
  cases hg : getline '\n' text with
  | none =>
    cases text with
    | nil => simp
    | cons c t => simp [getline] at hg
  | some p =>
    obtain ⟨line, rest⟩ := p
    simp only
    rw [containersLoop_eq_linesLoop,
      linesLoop_eq parseContainerLine parseContainerLine_nil _ _ _ (Nat.lt_succ_self _),
      List.nil_append]
    exact splitOn_tail_of_getline text line rest hg _ parseContainerLine_nil

theorem parseImagesText_eq (text : Str) :
    parseImagesText text = ((text.splitOn '\n').tail).filterMap parseImageLine := by
  unfold parseImagesText
  cases hg : getline '\n' text with
  | none =>
    cases text with
    | nil => simp
    | cons c t => simp [getline] at hg
  | some p =>
    obtain ⟨line, rest⟩ := p
    simp only
    rw [imagesLoop_eq_linesLoop,
      linesLoop_eq parseImageLine parseImageLine_nil _ _ _ (Nat.lt_succ_self _),
      List.nil_append]
    exact splitOn_tail_of_getline text line rest hg _ parseImageLine_nil

/-! ## One line: tab-delimited reads against the fields of the line -/

theorem getline_ne_nil (d : Char) (s f r : Str) (h : getline d s = some (f, r)) : s ≠ [] := by
  rintro rfl
  simp [getline] at h

/-- A successful read that leaves something unread has consumed a delimiter. -/
theorem splitOn_of_getline (d : Char) (s f r : Str) (h : getline d s = some (f, r))
    (hr : r ≠ []) : s.splitOn d = f :: r.splitOn d := by
  have hs := getline_ne_nil d s f r h
  by_cases hm : d ∈ s
  · rw [getline_of_mem d s hm] at h
    simp only [Option.some.injEq, Prod.mk.injEq] at h
    rw [splitOn_of_mem d s hm, h.1, h.2]
  · rw [getline_of_not_mem d s hs hm] at h
    simp only [Option.some.injEq, Prod.mk.injEq] at h
    exact absurd h.2.symm hr

/-- When a text splits into at least two fields, one read yields the first
field and leaves the text of the remaining fields. -/
theorem getline_of_splitOn_cons_cons (d : Char) (s f g : Str) (rest : List Str)
    (h : s.splitOn d = f :: g :: rest) :
    ∃ r, getline d s = some (f, r) ∧ r.splitOn d = g :: rest := by
  by_cases hm : d ∈ s
  · rw [splitOn_of_mem d s hm] at h
    simp only [List.cons.injEq] at h
    exact ⟨_, by rw [getline_of_mem d s hm, h.1], h.2⟩
  · rw [splitOn_of_not_mem d s hm] at h
    simp at h

/-- A text that splits into a single field is that field and holds no delimiter. -/
theorem eq_of_splitOn_singleton (d : Char) (s f : Str) (h : s.splitOn d = [f]) :
    s = f ∧ d ∉ s := by
  by_cases hm : d ∈ s
  · rw [splitOn_of_mem d s hm] at h
    simp only [List.cons.injEq] at h
    exact absurd h.2 (splitOn_ne_nil d _)
  · rw [splitOn_of_not_mem d s hm] at h
    simp only [List.cons.injEq, and_true] at h
    exact ⟨h, hm⟩

theorem getline_of_splitOn_singleton (d : Char) (s f : Str) (h : s.splitOn d = [f])
    (hf : f ≠ []) : getline d s = some (f, []) := by
  obtain ⟨h1, h2⟩ := eq_of_splitOn_singleton d s f h
  subst h1
  exact getline_of_not_mem d s hf h2

/-- The optional last read: it yields the first field of what is left, which is
the empty string when nothing is left. -/
theorem optional_read_of_splitOn (d : Char) (s f : Str) (rest : List Str)
    (h : s.splitOn d = f :: rest) :
    (match getline d s with
      | some (p, _) => p
      | none => ([] : Str)) = f := by
  cases rest with
  | nil =>
    obtain ⟨h1, h2⟩ := eq_of_splitOn_singleton d s f h
    subst h1
    cases s with
    | nil => rfl
    | cons c t => rw [getline_of_not_mem d (c :: t) (by simp) h2]
  | cons g rest =>
    obtain ⟨r, hr, _⟩ := getline_of_splitOn_cons_cons d s f g rest h
    rw [hr]

theorem ne_nil_of_splitOn_cons_cons (d : Char) (s f g : Str) (rest : List Str)
    (h : s.splitOn d = f :: g :: rest) : s ≠ [] := by
  rintro rfl
  simp at h

theorem parseContainerLine_of_five (line f1 f2 f3 f4 f5 : Str) (rest : List Str)
    (h : line.splitOn '\t' = f1 :: f2 :: f3 :: f4 :: f5 :: rest) :
    parseContainerLine line = some ⟨f1, f2, f3, f4, f5⟩ := by
  have hne := ne_nil_of_splitOn_cons_cons _ _ _ _ _ h
  obtain ⟨r1, h1, h⟩ := getline_of_splitOn_cons_cons _ _ _ _ _ h
  obtain ⟨r2, h2, h⟩ := getline_of_splitOn_cons_cons _ _ _ _ _ h
  obtain ⟨r3, h3, h⟩ := getline_of_splitOn_cons_cons _ _ _ _ _ h
  obtain ⟨r4, h4, h⟩ := getline_of_splitOn_cons_cons _ _ _ _ _ h
  have h5 := optional_read_of_splitOn _ _ _ _ h
  simp only [parseContainerLine, List.isEmpty_eq_true, hne, if_false, h1, h2, h3, h4, h5]

theorem parseContainerLine_of_four (line f1 f2 f3 f4 : Str)
    (h : line.splitOn '\t' = [f1, f2, f3, f4]) (h4 : f4 ≠ []) :
    parseContainerLine line = some ⟨f1, f2, f3, f4, []⟩ := by
  have hne := ne_nil_of_splitOn_cons_cons _ _ _ _ _ h
  obtain ⟨r1, h1, h⟩ := getline_of_splitOn_cons_cons _ _ _ _ _ h
  obtain ⟨r2, h2, h⟩ := getline_of_splitOn_cons_cons _ _ _ _ _ h
  obtain ⟨r3, h3, h⟩ := getline_of_splitOn_cons_cons _ _ _ _ _ h
  have h5 := getline_of_splitOn_singleton _ _ _ h h4
  simp only [parseContainerLine, List.isEmpty_eq_true, hne, if_false, h1, h2, h3, h5,
    getline_nil]

theorem parseContainerLine_of_four_empty (line f1 f2 f3 : Str)
    (h : line.splitOn '\t' = [f1, f2, f3, []]) :
    parseContainerLine line = none := by
  have hne := ne_nil_of_splitOn_cons_cons _ _ _ _ _ h
  obtain ⟨r1, h1, h⟩ := getline_of_splitOn_cons_cons _ _ _ _ _ h
  obtain ⟨r2, h2, h⟩ := getline_of_splitOn_cons_cons _ _ _ _ _ h
  obtain ⟨r3, h3, h⟩ := getline_of_splitOn_cons_cons _ _ _ _ _ h
  obtain ⟨h5, _⟩ := eq_of_splitOn_singleton _ _ _ h
  subst h5
  simp only [parseContainerLine, List.isEmpty_eq_true, hne, if_false, h1, h2, h3,
    getline_nil]

/-- A container line that yields a record has at least four tab-separated fields. -/
theorem four_le_of_parseContainerLine (line : Str) (c : ContainerInfo)
    (h : parseContainerLine line = some c) : 4 ≤ (line.splitOn '\t').length := by
  unfold parseContainerLine at h
  split at h
  · simp at h
  cases h1 : getline '\t' line with
  | none => simp [h1] at h
  | some p1 =>
    obtain ⟨f1, r1⟩ := p1
    cases h2 : getline '\t' r1 with
    | none => simp [h1, h2] at h
    | some p2 =>
      obtain ⟨f2, r2⟩ := p2
      cases h3 : getline '\t' r2 with
      | none => simp [h1, h2, h3] at h
      | some p3 =>
        obtain ⟨f3, r3⟩ := p3
        cases h4 : getline '\t' r3 with
        | none => simp [h1, h2, h3, h4] at h
        | some p4 =>
          obtain ⟨f4, r4⟩ := p4
          rw [splitOn_of_getline _ _ _ _ h1 (getline_ne_nil _ _ _ _ h2),
            splitOn_of_getline _ _ _ _ h2 (getline_ne_nil _ _ _ _ h3),
            splitOn_of_getline _ _ _ _ h3 (getline_ne_nil _ _ _ _ h4)]
          have := List.length_pos.mpr (splitOn_ne_nil '\t' r3)
          simp only [List.length_cons]
          omega

theorem parseContainerLine_of_lt_four (line : Str) (h : (line.splitOn '\t').length < 4) :
    parseContainerLine line = none := by
  cases hp : parseContainerLine line with
  | none => rfl
  | some c =>
    have := four_le_of_parseContainerLine line c hp
    omega

/-- No piece of a split holds the delimiter. -/
theorem not_mem_of_mem_splitOn (d : Char) (s : Str) :
    ∀ l ∈ s.splitOn d, d ∉ l := by
  induction s with
  | nil => simp
  | cons c t ih =>
    simp only [List.splitOn] at ih ⊢
    rw [List.splitOnP_cons]
    by_cases hc : c = d
    · subst hc
      simp only [beq_self_eq_true, if_true, List.mem_cons]
      rintro l (rfl | hl)
      · simp
      · exact ih l hl
    · have hcd : (c == d) = false := by simpa using hc
      simp only [hcd, Bool.false_eq_true, if_false]
      cases hsp : List.splitOnP (· == d) t with
      | nil => simp
      | cons p ps =>
        rw [hsp] at ih
        simp only [List.modifyHead_cons, List.mem_cons]
        rintro l (rfl | hl)
        · have := ih p (by simp)
          simp only [List.mem_cons, not_or]
          exact ⟨fun h => hc h.symm, this⟩
        · exact ih l (by simp [hl])

theorem splitOn_joinLines (ls : List Str) (hne : ls ≠ []) (h : ∀ l ∈ ls, '\n' ∉ l) :
    (joinLines ls).splitOn '\n' = ls :=
  List.splitOn_intercalate ls '\n' h hne


/-! ## Parser properties -/

theorem filterMap_splitOn_replicate_newline {α : Type} (f : Str → Option α) (hf : f [] = none)
    (n : Nat) : ((List.replicate n '\n').splitOn '\n').filterMap f = [] := by
  induction n with
  | zero => simp [hf]
  | succ k ih =>
    simp only [List.splitOn] at ih ⊢
    simp [List.replicate_succ, List.splitOnP_cons, hf, ih]

theorem parseContainersText_of_lines (text header : Str) (lines : List Str)
    (h : text.splitOn '\n' = header :: lines) :
    parseContainersText text = lines.filterMap parseContainerLine := by
  rw [parseContainersText_eq, h, List.tail_cons]

theorem parseImagesText_of_lines (text header : Str) (lines : List Str)
    (h : text.splitOn '\n' = header :: lines) :
    parseImagesText text = lines.filterMap parseImageLine := by
  rw [parseImagesText_eq, h, List.tail_cons]

theorem splitOn_first_line (first rest : Str) (h : '\n' ∉ first) :
    (first ++ '\n' :: rest).splitOn '\n' = first :: rest.splitOn '\n' := by
  apply List.splitOnP_first
  · intro x hx hxd
    simp only [beq_iff_eq] at hxd
    exact h (hxd ▸ hx)
  · simp

/-- C1, as stated, fails: a listing that begins with a blank line before the
header row.  The blank line is the one dropped, and the header row, the first
non-empty line, is parsed into a record. -/
theorem header_skip_first_nonempty_counterexample :
    parseContainersText "\nID\tNAMES\tIMAGE\tSTATUS\tPORTS\n".toList
        = [⟨"ID".toList, "NAMES".toList, "IMAGE".toList, "STATUS".toList, "PORTS".toList⟩] ∧
      ¬ (parseContainersText "\nID\tNAMES\tIMAGE\tSTATUS\tPORTS\n".toList
        = (linesAfterFirstNonEmpty "\nID\tNAMES\tIMAGE\tSTATUS\tPORTS\n".toList).filterMap
            parseContainerLine) := by
  decide

/-- C1, amended: the first line of the text, empty or not, never produces a
record.  For a text `first ++ "\n" ++ rest` whose first line is `first`, both
parsers return exactly what the lines of `rest` yield, whatever `first` is; a
text that is a single line yields no record. -/
theorem header_skip_first_line (first rest : Str) (h : '\n' ∉ first) :
    parseContainersText (first ++ '\n' :: rest)
        = (rest.splitOn '\n').filterMap parseContainerLine ∧
      parseImagesText (first ++ '\n' :: rest)
        = (rest.splitOn '\n').filterMap parseImageLine ∧
      parseContainersText first = [] ∧ parseImagesText first = [] := by
  refine ⟨?_, ?_, ?_, ?_⟩
  · exact parseContainersText_of_lines _ _ _ (splitOn_first_line first rest h)
  · exact parseImagesText_of_lines _ _ _ (splitOn_first_line first rest h)
  · exact parseContainersText_of_lines _ _ _ (splitOn_of_not_mem '\n' first h)
  · exact parseImagesText_of_lines _ _ _ (splitOn_of_not_mem '\n' first h)

/-- Witness for C1 amended: with an empty first line, the header row that
follows is read as data. -/
theorem header_skip_first_line_witness :
    '\n' ∉ ([] : Str) ∧
      parseContainersText ([] ++ '\n' :: "ID\tNAMES\tIMAGE\tSTATUS\tPORTS".toList)
        = ("ID\tNAMES\tIMAGE\tSTATUS\tPORTS".toList.splitOn '\n').filterMap
            parseContainerLine :=
  ⟨by decide, (header_skip_first_line [] "ID\tNAMES\tIMAGE\tSTATUS\tPORTS".toList
    (by decide)).1⟩

/-- C2: a data line with fewer than 4 tab-separated fields contributes no
record: the parse of a listing holding such a line is the records of the lines
before it followed by the records of the lines after it, which is also the
parse of the listing with that line removed. -/
theorem required_field_rejection (text header line : Str) (pre post : List Str)
    (hlines : text.splitOn '\n' = header :: (pre ++ line :: post))
    (hlt : (line.splitOn '\t').length < 4) :
    parseContainerLine line = none ∧
      parseContainersText text
        = pre.filterMap parseContainerLine ++ post.filterMap parseContainerLine ∧
      parseContainersText text = parseContainersText (joinLines (header :: (pre ++ post))) := by
  have hnone := parseContainerLine_of_lt_four line hlt
  have h1 : parseContainersText text
      = pre.filterMap parseContainerLine ++ post.filterMap parseContainerLine := by
    rw [parseContainersText_of_lines text header _ hlines, List.filterMap_append,
      List.filterMap_cons, hnone]
  refine ⟨hnone, h1, ?_⟩
  have hfree : ∀ l ∈ header :: (pre ++ post), '\n' ∉ l := by
    intro l hl
    apply not_mem_of_mem_splitOn '\n' text l
    rw [hlines]
    simp only [List.mem_cons, List.mem_append] at hl ⊢
    tauto
  rw [h1, parseContainersText_of_lines _ header (pre ++ post)
    (splitOn_joinLines _ (by simp) hfree), List.filterMap_append]

/-- Witness for C2: a three-field line between two well-formed lines. -/
theorem required_field_rejection_witness :
    parseContainersText "H\na\tb\tc\td\te\nx\ty\tz\np\tq\tr\ts".toList
      = ["a\tb\tc\td\te".toList].filterMap parseContainerLine
        ++ ["p\tq\tr\ts".toList].filterMap parseContainerLine :=
  (required_field_rejection "H\na\tb\tc\td\te\nx\ty\tz\np\tq\tr\ts".toList "H".toList
    "x\ty\tz".toList ["a\tb\tc\td\te".toList] ["p\tq\tr\ts".toList]
    (by decide) (by decide)).2.1

/-- C3, as stated, fails: the line `a<TAB>b<TAB>c<TAB>` splits on tabs into
exactly the 4 fields `a`, `b`, `c` and the empty string, and yields no record,
because the fourth read finds nothing left to extract. -/
theorem missing_ports_empty_status_counterexample :
    "a\tb\tc\t".toList.splitOn '\t' = ["a".toList, "b".toList, "c".toList, []] ∧
      parseContainerLine "a\tb\tc\t".toList = none ∧
      parseContainersText "ID\tNAMES\tIMAGE\tSTATUS\tPORTS\na\tb\tc\t\n".toList = [] := by
  decide

/-- C3, amended: a data line that splits on tabs into exactly 4 fields
`f1..f4` with `f4` non-empty (`f1`, `f2`, `f3` may be empty) produces exactly
one record, `id = f1`, `name = f2`, `image = f3`, `status = f4`, `ports = ""`,
at the position of the line. -/
theorem missing_ports (text header line f1 f2 f3 f4 : Str) (pre post : List Str)
    (hlines : text.splitOn '\n' = header :: (pre ++ line :: post))
    (hfields : line.splitOn '\t' = [f1, f2, f3, f4]) (hstatus : f4 ≠ []) :
    parseContainerLine line = some ⟨f1, f2, f3, f4, []⟩ ∧
      parseContainersText text
        = pre.filterMap parseContainerLine ++ [⟨f1, f2, f3, f4, []⟩]
          ++ post.filterMap parseContainerLine := by
  have hrec := parseContainerLine_of_four line f1 f2 f3 f4 hfields hstatus
  refine ⟨hrec, ?_⟩
  rw [parseContainersText_of_lines text header _ hlines, List.filterMap_append,
    List.filterMap_cons, hrec]
  simp

/-- Witness for C3 amended: a four-field line with empty id, name and image. -/
theorem missing_ports_witness :
    parseContainersText "H\n\t\t\tExited (0)\n".toList
      = [⟨[], [], [], "Exited (0)".toList, []⟩] :=
  (missing_ports "H\n\t\t\tExited (0)\n".toList "H".toList "\t\t\tExited (0)".toList
    [] [] [] "Exited (0)".toList [] [[]] (by decide) (by decide) (by decide)).2

/-- C4: a data line that splits on tabs into 5 or more fields produces exactly
one record, made of the first five fields in order and unmodified, at the
position of the line; further fields are ignored. -/
theorem full_container_line (text header line f1 f2 f3 f4 f5 : Str)
    (more pre post : List Str)
    (hlines : text.splitOn '\n' = header :: (pre ++ line :: post))
    (hfields : line.splitOn '\t' = f1 :: f2 :: f3 :: f4 :: f5 :: more) :
    parseContainerLine line = some ⟨f1, f2, f3, f4, f5⟩ ∧
      parseContainersText text
        = pre.filterMap parseContainerLine ++ [⟨f1, f2, f3, f4, f5⟩]
          ++ post.filterMap parseContainerLine := by
  have hrec := parseContainerLine_of_five line f1 f2 f3 f4 f5 more hfields
  refine ⟨hrec, ?_⟩
  rw [parseContainersText_of_lines text header _ hlines, List.filterMap_append,
    List.filterMap_cons, hrec]
  simp

/-- Witness for C4: the listing of the typical run yields exactly one record. -/
theorem full_container_line_witness :
    parseContainersText
        "ID\tNAMES\tIMAGE\tSTATUS\tPORTS\nabc123456789\tweb\tnginx:latest\tUp 5 minutes\t0.0.0.0:80->80/tcp".toList
      = [⟨"abc123456789".toList, "web".toList, "nginx:latest".toList, "Up 5 minutes".toList,
          "0.0.0.0:80->80/tcp".toList⟩] :=
  (full_container_line
    "ID\tNAMES\tIMAGE\tSTATUS\tPORTS\nabc123456789\tweb\tnginx:latest\tUp 5 minutes\t0.0.0.0:80->80/tcp".toList
    "ID\tNAMES\tIMAGE\tSTATUS\tPORTS".toList
    "abc123456789\tweb\tnginx:latest\tUp 5 minutes\t0.0.0.0:80->80/tcp".toList
    "abc123456789".toList "web".toList "nginx:latest".toList "Up 5 minutes".toList
    "0.0.0.0:80->80/tcp".toList [] [] [] (by decide) (by decide)).2

/-- C5: both parsers return the per-line parse applied, in input order, to the
lines after the header, keeping the lines that yield a record.  Each line
contributes at its own position: whatever the lines before and after it, the
result is the records of the lines before, then the record of the line (if
any), then the records of the lines after. -/
theorem order_preservation (text : Str) :
    parseContainersText text = ((text.splitOn '\n').tail).filterMap parseContainerLine ∧
      parseImagesText text = ((text.splitOn '\n').tail).filterMap parseImageLine ∧
      (∀ pre post line, (text.splitOn '\n').tail = pre ++ line :: post →
        parseContainersText text
          = pre.filterMap parseContainerLine ++ (parseContainerLine line).toList
            ++ post.filterMap parseContainerLine) ∧
      (∀ pre post line, (text.splitOn '\n').tail = pre ++ line :: post →
        parseImagesText text
          = pre.filterMap parseImageLine ++ (parseImageLine line).toList
            ++ post.filterMap parseImageLine) := by
  refine ⟨parseContainersText_eq text, parseImagesText_eq text, ?_, ?_⟩
  · intro pre post line h
    rw [parseContainersText_eq, h, List.filterMap_append, List.filterMap_cons]
    cases parseContainerLine line <;> simp
  · intro pre post line h
    rw [parseImagesText_eq, h, List.filterMap_append, List.filterMap_cons]
    cases parseImageLine line <;> simp

/-- C6: the empty text, and a text made of one header line followed by any
number `n` of newline characters (none, the one ending the header, or further
blank lines), parse to the empty sequence, for containers and for images. -/
theorem empty_input (header : Str) (n : Nat) (h : '\n' ∉ header) :
    parseContainersText [] = [] ∧ parseImagesText [] = [] ∧
      parseContainersText (header ++ List.replicate n '\n') = [] ∧
      parseImagesText (header ++ List.replicate n '\n') = [] := by
  refine ⟨rfl, rfl, ?_, ?_⟩
  · cases n with
    | zero =>
      rw [List.replicate_zero, List.append_nil]
      exact parseContainersText_of_lines _ _ _ (splitOn_of_not_mem '\n' header h)
    | succ k =>
      rw [List.replicate_succ,
        parseContainersText_of_lines _ _ _ (splitOn_first_line header _ h)]
      exact filterMap_splitOn_replicate_newline _ parseContainerLine_nil k
  · cases n with
    | zero =>
      rw [List.replicate_zero, List.append_nil]
      exact parseImagesText_of_lines _ _ _ (splitOn_of_not_mem '\n' header h)
    | succ k =>
      rw [List.replicate_succ,
        parseImagesText_of_lines _ _ _ (splitOn_first_line header _ h)]
      exact filterMap_splitOn_replicate_newline _ parseImageLine_nil k

/-- Witness for C6: the container header row followed by three newlines. -/
theorem empty_input_witness :
    parseContainersText ("ID\tNAMES\tIMAGE\tSTATUS\tPORTS".toList ++ List.replicate 3 '\n') = [] ∧
      parseImagesText ("ID\tNAMES\tIMAGE\tSTATUS\tPORTS".toList ++ List.replicate 3 '\n') = [] :=
  (empty_input "ID\tNAMES\tIMAGE\tSTATUS\tPORTS".toList 3 (by decide)).2.2

/-! ## Renderer properties -/

theorem setwLeft_substr0_eq (w : Nat) (v : Str) :
    setwLeft w (substr0 v (w - 1)) = truncatedCell w v := by
  simp only [setwLeft, substr0, truncatedCell, List.length_take]
  rw [Nat.min_comm v.length (w - 1)]
  congr 1
  rw [List.take_eq_take]
  simp

theorem truncatedCell_length (w : Nat) (v : Str) (hw : 0 < w) :
    (truncatedCell w v).length = w := by
  simp only [truncatedCell, List.length_append, List.length_take, List.length_replicate]
  omega

theorem containerRow_eq (c : ContainerInfo) :
    containerRow c = truncatedCell 12 c.id ++ truncatedCell 20 c.name ++
      truncatedCell 20 c.image ++ truncatedCell 15 c.status ++ c.ports ++ ['\n'] := by
  have h12 := setwLeft_substr0_eq 12 c.id
  have h20 := setwLeft_substr0_eq 20 c.name
  have h20i := setwLeft_substr0_eq 20 c.image
  have h15 := setwLeft_substr0_eq 15 c.status
  simp only [Nat.add_one_sub_one, Nat.reduceSub] at h12 h20 h20i h15
  rw [containerRow, h12, h20, h20i, h15]
  rfl

theorem imageRow_eq (i : ImageInfo) :
    imageRow i = truncatedCell 25 i.repository ++ truncatedCell 15 i.tag ++
      truncatedCell 12 i.imageId ++ i.size ++ ['\n'] := by
  have h25 := setwLeft_substr0_eq 25 i.repository
  have h15 := setwLeft_substr0_eq 15 i.tag
  have h12 := setwLeft_substr0_eq 12 i.imageId
  simp only [Nat.reduceSub] at h25 h15 h12
  rw [imageRow, h25, h15, h12]
  rfl

/-- C7: every cell but the last of a table row is the first
`min (length value) (w - 1)` characters of the value followed by spaces up to
exactly `w` characters, for the widths 12, 20, 20, 15 of the container table
and 25, 15, 12 of the image table; such a cell is `w` long, shows at most
`w - 1` characters of the value and ends with at least one space. -/
theorem truncation_invariant (c : ContainerInfo) (i : ImageInfo) (w : Nat) (v : Str)
    (hw : 0 < w) :
    containerRow c = truncatedCell 12 c.id ++ truncatedCell 20 c.name ++
        truncatedCell 20 c.image ++ truncatedCell 15 c.status ++ c.ports ++ ['\n'] ∧
      imageRow i = truncatedCell 25 i.repository ++ truncatedCell 15 i.tag ++
        truncatedCell 12 i.imageId ++ i.size ++ ['\n'] ∧
      setwLeft w (substr0 v (w - 1)) = truncatedCell w v ∧
      (truncatedCell w v).length = w ∧
      (v.take (min v.length (w - 1))).length ≤ w - 1 ∧
      1 ≤ w - min v.length (w - 1) := by
  refine ⟨containerRow_eq c, imageRow_eq i, setwLeft_substr0_eq w v,
    truncatedCell_length w v hw, ?_, ?_⟩
  · simp only [List.length_take]
    omega
  · omega

/-- Witness for C7: the id `abc123456789` is printed as `abc12345678` and one
space. -/
theorem truncation_invariant_witness :
    setwLeft 12 (substr0 "abc123456789".toList (12 - 1)) = "abc12345678 ".toList :=
  (truncation_invariant ⟨[], [], [], [], []⟩ ⟨[], [], [], [], []⟩ 12 "abc123456789".toList
    (by decide)).2.2.1.trans (by decide)

/-- C8: a container row is 67 characters of fixed-width cells, then the ports
text in full, then a newline; an image row is 52 characters of fixed-width
cells, then the size text in full, then a newline. -/
theorem last_column_as_is (c : ContainerInfo) (i : ImageInfo) :
    (containerRow c).take 67 = truncatedCell 12 c.id ++ truncatedCell 20 c.name ++
        truncatedCell 20 c.image ++ truncatedCell 15 c.status ∧
      (containerRow c).drop 67 = c.ports ++ ['\n'] ∧
      (containerRow c).length = 67 + c.ports.length + 1 ∧
      (imageRow i).take 52 = truncatedCell 25 i.repository ++ truncatedCell 15 i.tag ++
        truncatedCell 12 i.imageId ∧
      (imageRow i).drop 52 = i.size ++ ['\n'] ∧
      (imageRow i).length = 52 + i.size.length + 1 := by
  have hc : (truncatedCell 12 c.id ++ truncatedCell 20 c.name ++
      truncatedCell 20 c.image ++ truncatedCell 15 c.status).length = 67 := by
    simp only [List.length_append, truncatedCell_length _ _ (by decide : 0 < 12),
      truncatedCell_length _ _ (by decide : 0 < 20),
      truncatedCell_length _ _ (by decide : 0 < 15)]
  have hi : (truncatedCell 25 i.repository ++ truncatedCell 15 i.tag ++
      truncatedCell 12 i.imageId).length = 52 := by
    simp only [List.length_append, truncatedCell_length _ _ (by decide : 0 < 25),
      truncatedCell_length _ _ (by decide : 0 < 12),
      truncatedCell_length _ _ (by decide : 0 < 15)]
  have hcr := containerRow_eq c
  have hir := imageRow_eq i
  rw [List.append_assoc _ c.ports] at hcr
  rw [List.append_assoc _ i.size] at hir
  refine ⟨?_, ?_, ?_, ?_, ?_, ?_⟩
  · rw [hcr, ← hc, List.take_left]
  · rw [hcr, ← hc, List.drop_left]
  · rw [hcr, List.length_append, hc]
    simp only [List.length_append, List.length_singleton]
    omega
  · rw [hir, ← hi, List.take_left]
  · rw [hir, ← hi, List.drop_left]
  · rw [hir, List.length_append, hi]
    simp only [List.length_append, List.length_singleton]
    omega

/-! ## Summary properties -/

theorem findFrom_isSome_iff (pat s : Str) (i : Nat) :
    (findFrom pat s i).isSome = true ↔ pat <:+: s := by
  induction s generalizing i with
  | nil =>
    simp only [findFrom]
    split
    · rename_i h
      simp only [Option.isSome_some, true_iff]
      exact (List.isPrefixOf_iff_prefix.mp h).isInfix
    · rename_i h
      simp only [Option.isSome_none, Bool.false_eq_true, false_iff]
      intro hin
      apply h
      rw [List.infix_nil] at hin
      subst hin
      rfl
  | cons c cs ih =>
    simp only [findFrom]
    split
    · rename_i h
      simp only [Option.isSome_some, true_iff]
      exact (List.isPrefixOf_iff_prefix.mp h).isInfix
    · rename_i h
      rw [ih, List.infix_cons_iff]
      constructor
      · exact Or.inr
      · rintro (hp | hin)
        · exact absurd (List.isPrefixOf_iff_prefix.mpr hp) h
        · exact hin

theorem find_ne_none_iff (s pat : Str) : (find s pat != none) = true ↔ pat <:+: s := by
  rw [← findFrom_isSome_iff pat s 0, find]
  cases findFrom pat s 0 <;> simp

theorem countStatus_foldl (cs : List ContainerInfo) (a b : Nat) :
    cs.foldl
        (fun (acc : Nat × Nat) c =>
          if find c.status "Up".toList != none then (acc.1 + 1, acc.2) else (acc.1, acc.2 + 1))
        (a, b)
      = (a + cs.countP (fun c => decide (containsUp c.status)),
          b + cs.countP (fun c => !decide (containsUp c.status))) := by
  induction cs generalizing a b with
  | nil => simp
  | cons c cs ih =>
    rw [List.foldl_cons]
    by_cases hup : containsUp c.status
    · have h1 : (find c.status "Up".toList != none) = true :=
        (find_ne_none_iff _ _).mpr hup
      simp only [h1, if_true, ih, List.countP_cons, hup, decide_True, Bool.not_true,
        Bool.false_eq_true, if_false, Prod.mk.injEq]
      omega
    · have h1 : ¬ (find c.status "Up".toList != none) = true :=
        fun h => hup ((find_ne_none_iff _ _).mp h)
      simp only [h1, if_false, ih, List.countP_cons, hup, decide_False, Bool.not_false,
        if_true, Bool.false_eq_true, Prod.mk.injEq]
      omega

theorem countStatus_eq (cs : List ContainerInfo) :
    countStatus cs = (cs.countP (fun c => decide (containsUp c.status)),
      cs.countP (fun c => !decide (containsUp c.status))) := by
  rw [countStatus, countStatus_foldl]
  simp

/-- C10: the running count is the number of records whose status holds `Up` as
a substring, the stopped count the number of the others, their sum the
sequence length, which is the total reported; the image total is the length of
the image sequence.  `Up 2 hours` and
`Exited (0) 2 hours ago (Up was never true)` count as running, `Created` and
`up 2 hours` as stopped. -/
theorem status_classification (cs : List ContainerInfo) (imgs : List ImageInfo)
    (version : Except String Str) :
    (countStatus cs).1 = cs.countP (fun c => decide (containsUp c.status)) ∧
      (countStatus cs).2 = cs.countP (fun c => !decide (containsUp c.status)) ∧
      (countStatus cs).1 + (countStatus cs).2 = cs.length ∧
      displaySystemSummary cs imgs version
        = "📊 SYSTEM SUMMARY\n".toList ++ sectionRule ++
          "Total Containers: ".toList ++ showNat cs.length ++ "\n".toList ++
          "  - Running: ".toList
            ++ showNat (cs.countP (fun c => decide (containsUp c.status))) ++ "\n".toList ++
          "  - Stopped: ".toList
            ++ showNat (cs.countP (fun c => !decide (containsUp c.status))) ++ "\n".toList ++
          "Total Images: ".toList ++ showNat imgs.length ++ "\n\n".toList ++
          versionLine version ++ "\n".toList ∧
      countStatus [⟨[], [], [], "Up 2 hours".toList, []⟩] = (1, 0) ∧
      countStatus [⟨[], [], [], "Exited (0) 2 hours ago (Up was never true)".toList, []⟩]
        = (1, 0) ∧
      countStatus [⟨[], [], [], "Created".toList, []⟩] = (0, 1) ∧
      countStatus [⟨[], [], [], "up 2 hours".toList, []⟩] = (0, 1) := by
  have h := countStatus_eq cs
  refine ⟨by rw [h], by rw [h], ?_, ?_, by decide, by decide, by decide, by decide⟩
  · rw [h]
    simp only
    have := List.length_eq_countP_add_countP (fun c : ContainerInfo => decide (containsUp c.status)) cs
    have hfun : (fun a : ContainerInfo => decide (¬ decide (containsUp a.status) = true))
        = fun c => !decide (containsUp c.status) := by
      funext a
      by_cases ha : containsUp a.status <;> simp [ha]
    rw [hfun] at this
    omega
  · rw [displaySystemSummary, h]

/-! ## The lines of a rendered table -/

theorem not_mem_truncatedCell (w : Nat) (v : Str) (h : '\n' ∉ v) :
    '\n' ∉ truncatedCell w v := by
  simp only [truncatedCell, List.mem_append, List.mem_replicate, not_or]
  refine ⟨fun hm => h (List.mem_of_mem_take hm), ?_⟩
  rintro ⟨_, hsp⟩
  exact absurd hsp (by decide)

theorem not_mem_containerRowLine (c : ContainerInfo) (h : c.noNewline) :
    '\n' ∉ containerRowLine c := by
  obtain ⟨h1, h2, h3, h4, h5⟩ := h
  simp only [containerRowLine, List.mem_append, not_or]
  exact ⟨⟨⟨⟨not_mem_truncatedCell _ _ h1, not_mem_truncatedCell _ _ h2⟩,
    not_mem_truncatedCell _ _ h3⟩, not_mem_truncatedCell _ _ h4⟩, h5⟩

theorem not_mem_imageRowLine (i : ImageInfo) (h : i.noNewline) :
    '\n' ∉ imageRowLine i := by
  obtain ⟨h1, h2, h3, _, h5⟩ := h
  simp only [imageRowLine, List.mem_append, not_or]
  exact ⟨⟨⟨not_mem_truncatedCell _ _ h1, not_mem_truncatedCell _ _ h2⟩,
    not_mem_truncatedCell _ _ h3⟩, h5⟩

theorem containerRow_eq_line (c : ContainerInfo) :
    containerRow c = containerRowLine c ++ ['\n'] := containerRow_eq c

theorem imageRow_eq_line (i : ImageInfo) :
    imageRow i = imageRowLine i ++ ['\n'] := imageRow_eq i

/-- Rows that each end with a newline and hold no other newline split into
one line per row. -/
theorem splitOn_rows {α : Type} (row body : α → Str) (hrow : ∀ a, row a = body a ++ ['\n'])
    (xs : List α) (h : ∀ a ∈ xs, '\n' ∉ body a) (rest : Str) :
    ((xs.map row).flatten ++ rest).splitOn '\n' = xs.map body ++ rest.splitOn '\n' := by
  induction xs with
  | nil => simp
  | cons a xs ih =>
    have ha := h a (List.mem_cons_self a xs)
    have hxs : ∀ b ∈ xs, '\n' ∉ body b := fun b hb => h b (List.mem_cons_of_mem a hb)
    have hshape : ((a :: xs).map row).flatten ++ rest
        = body a ++ '\n' :: ((xs.map row).flatten ++ rest) := by
      simp [hrow a, List.append_assoc]
    rw [hshape, splitOn_first_line _ _ ha, ih hxs]
    simp

theorem displayContainerReport_nonempty (cs : List ContainerInfo) (hne : cs ≠ []) :
    displayContainerReport cs
      = containerTitle ++ sectionRule ++ (containerHeader ++ (List.replicate 80 '-' ++ ['\n'])
          ++ (cs.map containerRow).flatten ++ ['\n']) := by
  have hemp : cs.isEmpty = false := by
    cases cs with
    | nil => exact absurd rfl hne
    | cons c t => rfl
  simp only [displayContainerReport, hemp, Bool.false_eq_true, if_false]
  rfl

theorem displayImageReport_nonempty (imgs : List ImageInfo) (hne : imgs ≠ []) :
    displayImageReport imgs
      = imageTitle ++ sectionRule ++ (imageHeader ++ (List.replicate 70 '-' ++ ['\n'])
          ++ (imgs.map imageRow).flatten ++ ['\n']) := by
  have hemp : imgs.isEmpty = false := by
    cases imgs with
    | nil => exact absurd rfl hne
    | cons c t => rfl
  simp only [displayImageReport, hemp, Bool.false_eq_true, if_false]
  rfl

/-- The lines of a non-empty container table whose records hold no newline. -/
theorem displayContainerReport_lines (cs : List ContainerInfo) (hne : cs ≠ [])
    (h : ∀ c ∈ cs, c.noNewline) :
    (displayContainerReport cs).splitOn '\n'
      = containerTitleLine :: ruleLine :: containerHeaderLine :: List.replicate 80 '-' ::
          (cs.map containerRowLine ++ [[], []]) := by
  have hshape : displayContainerReport cs
      = containerTitleLine ++ '\n' :: (ruleLine ++ '\n' :: (containerHeaderLine ++ '\n' ::
          (List.replicate 80 '-' ++ '\n' :: ((cs.map containerRow).flatten ++ ['\n'])))) := by
    rw [displayContainerReport_nonempty cs hne]
    have h1 : containerTitle = containerTitleLine ++ ['\n'] := by decide
    have h2 : sectionRule = ruleLine ++ ['\n'] := by decide
    have h3 : containerHeader = containerHeaderLine ++ ['\n'] := by decide
    rw [h1, h2, h3]
    simp only [List.append_assoc, List.singleton_append, List.cons_append, List.nil_append]
  rw [hshape, splitOn_first_line _ _ (by decide), splitOn_first_line _ _ (by decide),
    splitOn_first_line _ _ (by decide), splitOn_first_line _ _ (by decide),
    splitOn_rows containerRow containerRowLine containerRow_eq_line cs
      (fun c hc => not_mem_containerRowLine c (h c hc))]
  rfl

/-- The lines of a non-empty image table whose records hold no newline: the
five fill characters that follow the header text `SIZE` and its newline open
the line of the separator rule. -/
theorem displayImageReport_lines (imgs : List ImageInfo) (hne : imgs ≠ [])
    (h : ∀ i ∈ imgs, i.noNewline) :
    (displayImageReport imgs).splitOn '\n'
      = imageTitleLine :: ruleLine :: imageHeaderLine ::
          (List.replicate 5 ' ' ++ List.replicate 70 '-') ::
          (imgs.map imageRowLine ++ [[], []]) := by
  have hshape : displayImageReport imgs
      = imageTitleLine ++ '\n' :: (ruleLine ++ '\n' :: (imageHeaderLine ++ '\n' ::
          ((List.replicate 5 ' ' ++ List.replicate 70 '-') ++ '\n' ::
            ((imgs.map imageRow).flatten ++ ['\n'])))) := by
    rw [displayImageReport_nonempty imgs hne]
    have h1 : imageTitle = imageTitleLine ++ ['\n'] := by decide
    have h2 : sectionRule = ruleLine ++ ['\n'] := by decide
    have h3 : imageHeader = imageHeaderLine ++ '\n' :: List.replicate 5 ' ' := by decide
    rw [h1, h2, h3]
    simp only [List.append_assoc, List.singleton_append, List.cons_append, List.nil_append]
  rw [hshape, splitOn_first_line _ _ (by decide), splitOn_first_line _ _ (by decide),
    splitOn_first_line _ _ (by decide), splitOn_first_line _ _ (by decide),
    splitOn_rows imageRow imageRowLine imageRow_eq_line imgs
      (fun i hi => not_mem_imageRowLine i (h i hi))]
  rfl

/-! ## Characters of parsed fields -/

/-- What a successful read returns, and what it leaves, is made of characters
of the text read; the returned field holds no delimiter. -/
theorem getline_mem (d : Char) (s f r : Str) (h : getline d s = some (f, r)) :
    (∀ x ∈ f, x ∈ s ∧ x ≠ d) ∧ (∀ x ∈ r, x ∈ s) := by
  cases s with
  | nil => simp [getline] at h
  | cons c t =>
    simp only [getline, Option.some.injEq, Prod.mk.injEq] at h
    obtain ⟨hf, hr⟩ := h
    subst hf hr
    constructor
    · intro x hx
      refine ⟨(List.takeWhile_sublist _).subset hx, ?_⟩
      have := List.mem_takeWhile_imp hx
      simpa using this
    · intro x hx
      exact (List.dropWhile_sublist _).subset (List.mem_of_mem_tail hx)

theorem parseContainerLine_mem (line : Str) (c : ContainerInfo)
    (h : parseContainerLine line = some c) (x : Char)
    (hx : x ∈ c.id ∨ x ∈ c.name ∨ x ∈ c.image ∨ x ∈ c.status ∨ x ∈ c.ports) :
    x ∈ line ∧ x ≠ '\t' := by
  unfold parseContainerLine at h
  split at h
  · simp at h
  cases h1 : getline '\t' line with
  | none => simp [h1] at h
  | some p1 =>
    obtain ⟨f1, r1⟩ := p1
    cases h2 : getline '\t' r1 with
    | none => simp [h1, h2] at h
    | some p2 =>
      obtain ⟨f2, r2⟩ := p2
      cases h3 : getline '\t' r2 with
      | none => simp [h1, h2, h3] at h
      | some p3 =>
        obtain ⟨f3, r3⟩ := p3
        cases h4 : getline '\t' r3 with
        | none => simp [h1, h2, h3, h4] at h
        | some p4 =>
          obtain ⟨f4, r4⟩ := p4
          obtain ⟨m1, s1⟩ := getline_mem _ _ _ _ h1
          obtain ⟨m2, s2⟩ := getline_mem _ _ _ _ h2
          obtain ⟨m3, s3⟩ := getline_mem _ _ _ _ h3
          obtain ⟨m4, s4⟩ := getline_mem _ _ _ _ h4
          have in1 : ∀ y ∈ r1, y ∈ line := s1
          have in2 : ∀ y ∈ r2, y ∈ line := fun y hy => in1 y (s2 y hy)
          have in3 : ∀ y ∈ r3, y ∈ line := fun y hy => in2 y (s3 y hy)
          have in4 : ∀ y ∈ r4, y ∈ line := fun y hy => in3 y (s4 y hy)
          cases h5 : getline '\t' r4 with
          | none =>
            simp only [h1, h2, h3, h4, h5, Option.some.injEq] at h
            subst h
            simp only [List.not_mem_nil, or_false] at hx
            rcases hx with hx | hx | hx | hx
            · exact m1 x hx
            · exact ⟨in1 x (m2 x hx).1, (m2 x hx).2⟩
            · exact ⟨in2 x (m3 x hx).1, (m3 x hx).2⟩
            · exact ⟨in3 x (m4 x hx).1, (m4 x hx).2⟩
          | some p5 =>
            obtain ⟨f5, r5⟩ := p5
            obtain ⟨m5, _⟩ := getline_mem _ _ _ _ h5
            simp only [h1, h2, h3, h4, h5, Option.some.injEq] at h
            subst h
            rcases hx with hx | hx | hx | hx | hx
            · exact m1 x hx
            · exact ⟨in1 x (m2 x hx).1, (m2 x hx).2⟩
            · exact ⟨in2 x (m3 x hx).1, (m3 x hx).2⟩
            · exact ⟨in3 x (m4 x hx).1, (m4 x hx).2⟩
            · exact ⟨in4 x (m5 x hx).1, (m5 x hx).2⟩

theorem parseImageLine_mem (line : Str) (i : ImageInfo)
    (h : parseImageLine line = some i) (x : Char)
    (hx : x ∈ i.repository ∨ x ∈ i.tag ∨ x ∈ i.imageId ∨ x ∈ i.created ∨ x ∈ i.size) :
    x ∈ line ∧ x ≠ '\t' := by
  unfold parseImageLine at h
  split at h
  · simp at h
  cases h1 : getline '\t' line with
  | none => simp [h1] at h
  | some p1 =>
    obtain ⟨f1, r1⟩ := p1
    cases h2 : getline '\t' r1 with
    | none => simp [h1, h2] at h
    | some p2 =>
      obtain ⟨f2, r2⟩ := p2
      cases h3 : getline '\t' r2 with
      | none => simp [h1, h2, h3] at h
      | some p3 =>
        obtain ⟨f3, r3⟩ := p3
        cases h4 : getline '\t' r3 with
        | none => simp [h1, h2, h3, h4] at h
        | some p4 =>
          obtain ⟨f4, r4⟩ := p4
          cases h5 : getline '\t' r4 with
          | none => simp [h1, h2, h3, h4, h5] at h
          | some p5 =>
            obtain ⟨f5, r5⟩ := p5
            obtain ⟨m1, s1⟩ := getline_mem _ _ _ _ h1
            obtain ⟨m2, s2⟩ := getline_mem _ _ _ _ h2
            obtain ⟨m3, s3⟩ := getline_mem _ _ _ _ h3
            obtain ⟨m4, s4⟩ := getline_mem _ _ _ _ h4
            obtain ⟨m5, _⟩ := getline_mem _ _ _ _ h5
            have in1 : ∀ y ∈ r1, y ∈ line := s1
            have in2 : ∀ y ∈ r2, y ∈ line := fun y hy => in1 y (s2 y hy)
            have in3 : ∀ y ∈ r3, y ∈ line := fun y hy => in2 y (s3 y hy)
            have in4 : ∀ y ∈ r4, y ∈ line := fun y hy => in3 y (s4 y hy)
            simp only [h1, h2, h3, h4, h5, Option.some.injEq] at h
            subst h
            rcases hx with hx | hx | hx | hx | hx
            · exact m1 x hx
            · exact ⟨in1 x (m2 x hx).1, (m2 x hx).2⟩
            · exact ⟨in2 x (m3 x hx).1, (m3 x hx).2⟩
            · exact ⟨in3 x (m4 x hx).1, (m4 x hx).2⟩
            · exact ⟨in4 x (m5 x hx).1, (m5 x hx).2⟩

theorem parseContainersText_noNewline (text : Str) :
    ∀ c ∈ parseContainersText text, c.noNewline := by
  intro c hc
  rw [parseContainersText_eq, List.mem_filterMap] at hc
  obtain ⟨line, hline, hparse⟩ := hc
  have hfree := not_mem_of_mem_splitOn '\n' text line (List.mem_of_mem_tail hline)
  have key := fun hx => (parseContainerLine_mem line c hparse '\n' hx).1
  exact ⟨fun hx => hfree (key (Or.inl hx)),
    fun hx => hfree (key (Or.inr (Or.inl hx))),
    fun hx => hfree (key (Or.inr (Or.inr (Or.inl hx)))),
    fun hx => hfree (key (Or.inr (Or.inr (Or.inr (Or.inl hx))))),
    fun hx => hfree (key (Or.inr (Or.inr (Or.inr (Or.inr hx)))))⟩

theorem parseImagesText_noNewline (text : Str) :
    ∀ i ∈ parseImagesText text, i.noNewline := by
  intro i hi
  rw [parseImagesText_eq, List.mem_filterMap] at hi
  obtain ⟨line, hline, hparse⟩ := hi
  have hfree := not_mem_of_mem_splitOn '\n' text line (List.mem_of_mem_tail hline)
  have key := fun hx => (parseImageLine_mem line i hparse '\n' hx).1
  exact ⟨fun hx => hfree (key (Or.inl hx)),
    fun hx => hfree (key (Or.inr (Or.inl hx))),
    fun hx => hfree (key (Or.inr (Or.inr (Or.inl hx)))),
    fun hx => hfree (key (Or.inr (Or.inr (Or.inr (Or.inl hx))))),
    fun hx => hfree (key (Or.inr (Or.inr (Or.inr (Or.inr hx)))))⟩

/-! ## Empty and non-empty tables -/

theorem containerRowLine_length (c : ContainerInfo) :
    (containerRowLine c).length = 67 + c.ports.length := by
  simp only [containerRowLine, List.length_append,
    truncatedCell_length _ _ (by decide : 0 < 12),
    truncatedCell_length _ _ (by decide : 0 < 20),
    truncatedCell_length _ _ (by decide : 0 < 15)]

theorem imageRowLine_length (i : ImageInfo) :
    (imageRowLine i).length = 52 + i.size.length := by
  simp only [imageRowLine, List.length_append,
    truncatedCell_length _ _ (by decide : 0 < 25),
    truncatedCell_length _ _ (by decide : 0 < 12),
    truncatedCell_length _ _ (by decide : 0 < 15)]

theorem no_containers_line_absent (cs : List ContainerInfo) (hne : cs ≠ [])
    (h : ∀ c ∈ cs, c.noNewline) :
    "No containers found.".toList ∉ (displayContainerReport cs).splitOn '\n' := by
  rw [displayContainerReport_lines cs hne h]
  intro hmem
  rcases List.mem_cons.mp hmem with h1 | hmem
  · exact absurd h1 (by decide)
  rcases List.mem_cons.mp hmem with h1 | hmem
  · exact absurd h1 (by decide)
  rcases List.mem_cons.mp hmem with h1 | hmem
  · exact absurd h1 (by decide)
  rcases List.mem_cons.mp hmem with h1 | hmem
  · exact absurd h1 (by decide)
  rcases List.mem_append.mp hmem with hrow | hlast
  · obtain ⟨c, _, hc⟩ := List.mem_map.mp hrow
    have hlen := congrArg List.length hc
    rw [containerRowLine_length] at hlen
    have h20 : "No containers found.".toList.length = 20 := by decide
    omega
  · revert hlast
    decide

theorem no_images_line_absent (imgs : List ImageInfo) (hne : imgs ≠ [])
    (h : ∀ i ∈ imgs, i.noNewline) :
    "No images found.".toList ∉ (displayImageReport imgs).splitOn '\n' := by
  rw [displayImageReport_lines imgs hne h]
  intro hmem
  rcases List.mem_cons.mp hmem with h1 | hmem
  · exact absurd h1 (by decide)
  rcases List.mem_cons.mp hmem with h1 | hmem
  · exact absurd h1 (by decide)
  rcases List.mem_cons.mp hmem with h1 | hmem
  · exact absurd h1 (by decide)
  rcases List.mem_cons.mp hmem with h1 | hmem
  · exact absurd h1 (by decide)
  rcases List.mem_append.mp hmem with hrow | hlast
  · obtain ⟨i, _, hi⟩ := List.mem_map.mp hrow
    have hlen := congrArg List.length hi
    rw [imageRowLine_length] at hlen
    have h16 : "No images found.".toList.length = 16 := by decide
    omega
  · revert hlast
    decide

/-- C9: on an empty sequence each table prints its title, the rule and the
single line `No containers found.` (`No images found.`), and nothing else but
a blank line: no header row, no separator, no data row.  On a non-empty
sequence the table is made of the header row, the separator and the data rows,
and no line of the output is the `No ... found.` line; this holds for records
free of newline characters, as all parsed records are. -/
theorem empty_rendering (cs : List ContainerInfo) (imgs : List ImageInfo)
    (hcs : cs ≠ []) (himgs : imgs ≠ [])
    (hc : ∀ c ∈ cs, c.noNewline) (hi : ∀ i ∈ imgs, i.noNewline) :
    displayContainerReport []
        = containerTitle ++ sectionRule ++ "No containers found.\n\n".toList ∧
      (displayContainerReport []).splitOn '\n'
        = [containerTitleLine, ruleLine, "No containers found.".toList, [], []] ∧
      displayImageReport [] = imageTitle ++ sectionRule ++ "No images found.\n\n".toList ∧
      (displayImageReport []).splitOn '\n'
        = [imageTitleLine, ruleLine, "No images found.".toList, [], []] ∧
      displayContainerReport cs
        = containerTitle ++ sectionRule ++ (containerHeader ++ (List.replicate 80 '-' ++ ['\n'])
            ++ (cs.map containerRow).flatten ++ ['\n']) ∧
      "No containers found.".toList ∉ (displayContainerReport cs).splitOn '\n' ∧
      displayImageReport imgs
        = imageTitle ++ sectionRule ++ (imageHeader ++ (List.replicate 70 '-' ++ ['\n'])
            ++ (imgs.map imageRow).flatten ++ ['\n']) ∧
      "No images found.".toList ∉ (displayImageReport imgs).splitOn '\n' ∧
      (∀ text, parseContainersText text ≠ [] →
        "No containers found.".toList
          ∉ (displayContainerReport (parseContainersText text)).splitOn '\n') ∧
      (∀ text, parseImagesText text ≠ [] →
        "No images found.".toList
          ∉ (displayImageReport (parseImagesText text)).splitOn '\n') := by
  refine ⟨rfl, by decide, rfl, by decide, displayContainerReport_nonempty cs hcs,
    no_containers_line_absent cs hcs hc, displayImageReport_nonempty imgs himgs,
    no_images_line_absent imgs himgs hi, ?_, ?_⟩
  · intro text hne
    exact no_containers_line_absent _ hne (parseContainersText_noNewline text)
  · intro text hne
    exact no_images_line_absent _ hne (parseImagesText_noNewline text)

/-- Witness for C9: a table of one container and a table of one image. -/
theorem empty_rendering_witness :
    "No containers found.".toList
        ∉ (displayContainerReport
            [⟨"abc123456789".toList, "web".toList, "nginx:latest".toList,
              "Up 5 minutes".toList, "0.0.0.0:80->80/tcp".toList⟩]).splitOn '\n' ∧
      "No images found.".toList
        ∉ (displayImageReport
            [⟨"nginx".toList, "latest".toList, "605c77e624dd".toList,
              "2 weeks ago".toList, "141MB".toList⟩]).splitOn '\n' :=
  have h := empty_rendering
    [⟨"abc123456789".toList, "web".toList, "nginx:latest".toList,
      "Up 5 minutes".toList, "0.0.0.0:80->80/tcp".toList⟩]
    [⟨"nginx".toList, "latest".toList, "605c77e624dd".toList,
      "2 weeks ago".toList, "141MB".toList⟩]
    (by decide) (by decide) (by decide) (by decide)
  ⟨h.2.2.2.2.2.1, h.2.2.2.2.2.2.2.1⟩

/-! ## File report properties -/

theorem foldl_append_eq {α : Type} (g : α → Str) (xs : List α) (init : Str) :
    xs.foldl (fun f x => f ++ g x) init = init ++ (xs.map g).flatten := by
  induction xs generalizing init with
  | nil => simp
  | cons x xs ih => simp [ih, List.append_assoc]

theorem reportContainerEntry_eq (c : ContainerInfo) :
    reportContainerEntry c = containerBlock c := by
  cases hp : c.ports with
  | nil => simp [reportContainerEntry, containerBlock, hp]
  | cons a t => simp [reportContainerEntry, containerBlock, hp]

theorem reportImageEntry_eq (i : ImageInfo) : reportImageEntry i = imageBlock i := by
  simp [reportImageEntry, imageBlock]

theorem reportFileText_eq (date time : Str) (cs : List ContainerInfo) (imgs : List ImageInfo) :
    reportFileText date time cs imgs
      = reportFileHeader date time ++
          ("CONTAINERS (".toList ++ showNat cs.length ++ " total):\n".toList) ++
          (cs.map containerBlock).flatten ++
          ("IMAGES (".toList ++ showNat imgs.length ++ " total):\n".toList) ++
          (imgs.map imageBlock).flatten := by
  have hc : (fun (f : Str) c => f ++ reportContainerEntry c)
      = fun f c => f ++ containerBlock c := by
    funext f c
    rw [reportContainerEntry_eq]
  have hi : (fun (f : Str) i => f ++ reportImageEntry i) = fun f i => f ++ imageBlock i := by
    funext f i
    rw [reportImageEntry_eq]
  simp only [reportFileText, hc, hi, foldl_append_eq, reportFileHeader]
  simp [List.append_assoc]

/-- C11: when the report file is written, its text is the header, the line
`CONTAINERS (<n> total):` with `n` the number of records, one block per
container record in sequence order, then the image section.  A block is
`- <name> (<id>)`, `  Image: <image>`, `  Status: <status>`, then
`  Ports: <ports>` exactly when `ports` is non-empty, then a blank line, every
field in full. -/
theorem file_report_container_entries (date time : Str) (cs : List ContainerInfo)
    (imgs : List ImageInfo) (id name image status : Str) (p : Char) (ps : Str) :
    (generateReportFile true date time ⟨cs, imgs⟩).file
        = some (reportFileHeader date time ++
            ("CONTAINERS (".toList ++ showNat cs.length ++ " total):\n".toList) ++
            (cs.map containerBlock).flatten ++
            ("IMAGES (".toList ++ showNat imgs.length ++ " total):\n".toList) ++
            (imgs.map imageBlock).flatten) ∧
      reportContainerEntry ⟨id, name, image, status, []⟩
        = "- ".toList ++ name ++ " (".toList ++ id ++ ")\n".toList ++
            "  Image: ".toList ++ image ++ "\n".toList ++
            "  Status: ".toList ++ status ++ "\n".toList ++ "\n".toList ∧
      reportContainerEntry ⟨id, name, image, status, p :: ps⟩
        = "- ".toList ++ name ++ " (".toList ++ id ++ ")\n".toList ++
            "  Image: ".toList ++ image ++ "\n".toList ++
            "  Status: ".toList ++ status ++ "\n".toList ++
            "  Ports: ".toList ++ (p :: ps) ++ "\n".toList ++ "\n".toList := by
  refine ⟨?_, ?_, ?_⟩
  · simp only [generateReportFile, Bool.not_true, Bool.false_eq_true, if_false,
      reportFileText_eq]
  · simp [reportContainerEntry]
  · simp [reportContainerEntry]

/-- C19: when the report file is written, the image section comes after all
container blocks: the line `IMAGES (<m> total):` with `m` the number of image
records, then one block per image record in sequence order.  A block is
`- <repository>:<tag>`, `  ID: <imageId>`, `  Size: <size>`,
`  Created: <created>` and a blank line, every field in full. -/
theorem file_report_image_entries (date time : Str) (cs : List ContainerInfo)
    (imgs : List ImageInfo) (i : ImageInfo) :
    (generateReportFile true date time ⟨cs, imgs⟩).file
        = some ((reportFileHeader date time ++
              ("CONTAINERS (".toList ++ showNat cs.length ++ " total):\n".toList) ++
              (cs.map reportContainerEntry).flatten) ++
            (("IMAGES (".toList ++ showNat imgs.length ++ " total):\n".toList) ++
              (imgs.map reportImageEntry).flatten)) ∧
      reportImageEntry i
        = "- ".toList ++ i.repository ++ ":".toList ++ i.tag ++ "\n".toList ++
            "  ID: ".toList ++ i.imageId ++ "\n".toList ++
            "  Size: ".toList ++ i.size ++ "\n".toList ++
            "  Created: ".toList ++ i.created ++ "\n".toList ++ "\n".toList := by
  refine ⟨?_, ?_⟩
  · have hc : cs.map reportContainerEntry = cs.map containerBlock :=
      List.map_congr_left (fun c _ => reportContainerEntry_eq c)
    have hi : imgs.map reportImageEntry = imgs.map imageBlock :=
      List.map_congr_left (fun i _ => reportImageEntry_eq i)
    simp only [generateReportFile, Bool.not_true, Bool.false_eq_true, if_false,
      reportFileText_eq, hc, hi, List.append_assoc]
  · simp [reportImageEntry]

/-! ## Parsing into the reporter -/

/-- C13: when the listing command cannot be executed the collection is empty
and the method returns a reporter all the same; in every case the collection
after the parse is the same whatever the reporter held before, and the other
collection is the one held before. -/
theorem listing_failure_and_fresh_parse (exec : Except String Str) (what : String)
    (r r' : DockerReporter) :
    (parseContainers (.error what) r).containers = [] ∧
      (parseImages (.error what) r).images = [] ∧
      (parseContainers exec r).containers = (parseContainers exec r').containers ∧
      (parseImages exec r).images = (parseImages exec r').images ∧
      (parseContainers exec r).images = r.images ∧
      (parseImages exec r).containers = r.containers ∧
      (∀ output, (parseContainers (.ok output) r).containers = parseContainersText output) ∧
      (∀ output, (parseImages (.ok output) r).images = parseImagesText output) := by
  refine ⟨rfl, rfl, ?_, ?_, ?_, ?_, fun _ => rfl, fun _ => rfl⟩
  · cases exec <;> rfl
  · cases exec <;> rfl
  · cases exec <;> rfl
  · cases exec <;> rfl

/-! ## Image lines -/

/-- The first field of a text is what one successful read returns. -/
theorem splitOn_head_of_getline (d : Char) (s f r : Str) (h : getline d s = some (f, r)) :
    ∃ more, s.splitOn d = f :: more := by
  have hs := getline_ne_nil d s f r h
  by_cases hm : d ∈ s
  · rw [getline_of_mem d s hm] at h
    simp only [Option.some.injEq, Prod.mk.injEq] at h
    exact ⟨_, by rw [splitOn_of_mem d s hm, h.1]⟩
  · rw [getline_of_not_mem d s hs hm] at h
    simp only [Option.some.injEq, Prod.mk.injEq] at h
    exact ⟨[], by rw [splitOn_of_not_mem d s hm, h.1]⟩

/-- An image line that yields a record splits into at least five fields, and
the record is made of the first five. -/
theorem fields_of_parseImageLine (line : Str) (i : ImageInfo)
    (h : parseImageLine line = some i) :
    ∃ more, line.splitOn '\t'
      = i.repository :: i.tag :: i.imageId :: i.created :: i.size :: more := by
  unfold parseImageLine at h
  split at h
  · simp at h
  cases h1 : getline '\t' line with
  | none => simp [h1] at h
  | some p1 =>
    obtain ⟨f1, r1⟩ := p1
    cases h2 : getline '\t' r1 with
    | none => simp [h1, h2] at h
    | some p2 =>
      obtain ⟨f2, r2⟩ := p2
      cases h3 : getline '\t' r2 with
      | none => simp [h1, h2, h3] at h
      | some p3 =>
        obtain ⟨f3, r3⟩ := p3
        cases h4 : getline '\t' r3 with
        | none => simp [h1, h2, h3, h4] at h
        | some p4 =>
          obtain ⟨f4, r4⟩ := p4
          cases h5 : getline '\t' r4 with
          | none => simp [h1, h2, h3, h4, h5] at h
          | some p5 =>
            obtain ⟨f5, r5⟩ := p5
            simp only [h1, h2, h3, h4, h5, Option.some.injEq] at h
            subst h
            obtain ⟨more, hmore⟩ := splitOn_head_of_getline _ _ _ _ h5
            refine ⟨more, ?_⟩
            rw [splitOn_of_getline _ _ _ _ h1 (getline_ne_nil _ _ _ _ h2),
              splitOn_of_getline _ _ _ _ h2 (getline_ne_nil _ _ _ _ h3),
              splitOn_of_getline _ _ _ _ h3 (getline_ne_nil _ _ _ _ h4),
              splitOn_of_getline _ _ _ _ h4 (getline_ne_nil _ _ _ _ h5), hmore]

theorem parseImageLine_of_lt_five (line : Str) (h : (line.splitOn '\t').length < 5) :
    parseImageLine line = none := by
  cases hp : parseImageLine line with
  | none => rfl
  | some i =>
    obtain ⟨more, hmore⟩ := fields_of_parseImageLine line i hp
    rw [hmore] at h
    simp only [List.length_cons] at h
    omega

theorem parseImageLine_of_six (line f1 f2 f3 f4 f5 f6 : Str) (rest : List Str)
    (h : line.splitOn '\t' = f1 :: f2 :: f3 :: f4 :: f5 :: f6 :: rest) :
    parseImageLine line = some ⟨f1, f2, f3, f4, f5⟩ := by
  have hne := ne_nil_of_splitOn_cons_cons _ _ _ _ _ h
  obtain ⟨r1, h1, h⟩ := getline_of_splitOn_cons_cons _ _ _ _ _ h
  obtain ⟨r2, h2, h⟩ := getline_of_splitOn_cons_cons _ _ _ _ _ h
  obtain ⟨r3, h3, h⟩ := getline_of_splitOn_cons_cons _ _ _ _ _ h
  obtain ⟨r4, h4, h⟩ := getline_of_splitOn_cons_cons _ _ _ _ _ h
  obtain ⟨r5, h5, h⟩ := getline_of_splitOn_cons_cons _ _ _ _ _ h
  simp only [parseImageLine, List.isEmpty_eq_true, hne, if_false, h1, h2, h3, h4, h5]

theorem parseImageLine_of_five (line f1 f2 f3 f4 f5 : Str)
    (h : line.splitOn '\t' = [f1, f2, f3, f4, f5]) (h5 : f5 ≠ []) :
    parseImageLine line = some ⟨f1, f2, f3, f4, f5⟩ := by
  have hne := ne_nil_of_splitOn_cons_cons _ _ _ _ _ h
  obtain ⟨r1, h1, h⟩ := getline_of_splitOn_cons_cons _ _ _ _ _ h
  obtain ⟨r2, h2, h⟩ := getline_of_splitOn_cons_cons _ _ _ _ _ h
  obtain ⟨r3, h3, h⟩ := getline_of_splitOn_cons_cons _ _ _ _ _ h
  obtain ⟨r4, h4, h⟩ := getline_of_splitOn_cons_cons _ _ _ _ _ h
  have h6 := getline_of_splitOn_singleton _ _ _ h h5
  simp only [parseImageLine, List.isEmpty_eq_true, hne, if_false, h1, h2, h3, h4, h6]

/-- C14: an image data line with fewer than 5 tab-separated fields contributes
no record, and the lines around it are parsed as they are without it; every
record of the parsed image sequence is made of the first five fields of a data
line that has at least 5 tab-separated fields. -/
theorem image_required_fields_rejection (text header line : Str) (pre post : List Str)
    (hlines : text.splitOn '\n' = header :: (pre ++ line :: post))
    (hlt : (line.splitOn '\t').length < 5) :
    parseImageLine line = none ∧
      parseImagesText text = pre.filterMap parseImageLine ++ post.filterMap parseImageLine ∧
      (∀ (t : Str) (i : ImageInfo), i ∈ parseImagesText t →
        ∃ l ∈ (t.splitOn '\n').tail, ∃ more,
          l.splitOn '\t' = i.repository :: i.tag :: i.imageId :: i.created :: i.size :: more ∧
          5 ≤ (l.splitOn '\t').length) := by
  have hnone := parseImageLine_of_lt_five line hlt
  refine ⟨hnone, ?_, ?_⟩
  · rw [parseImagesText_of_lines text header _ hlines, List.filterMap_append,
      List.filterMap_cons, hnone]
  · intro t i hi
    rw [parseImagesText_eq, List.mem_filterMap] at hi
    obtain ⟨l, hl, hparse⟩ := hi
    obtain ⟨more, hmore⟩ := fields_of_parseImageLine l i hparse
    refine ⟨l, hl, more, hmore, ?_⟩
    rw [hmore]
    simp

/-- Witness for C14: a four-field line between two well-formed image lines. -/
theorem image_required_fields_rejection_witness :
    parseImagesText
        "H\nnginx\tlatest\t605c\t2 weeks ago\t141MB\nredis\t7\tabcd\t3 days ago\nbusybox\t1\tbeef\t1 day ago\t4MB".toList
      = ["nginx\tlatest\t605c\t2 weeks ago\t141MB".toList].filterMap parseImageLine
        ++ ["busybox\t1\tbeef\t1 day ago\t4MB".toList].filterMap parseImageLine :=
  (image_required_fields_rejection
    "H\nnginx\tlatest\t605c\t2 weeks ago\t141MB\nredis\t7\tabcd\t3 days ago\nbusybox\t1\tbeef\t1 day ago\t4MB".toList
    "H".toList "redis\t7\tabcd\t3 days ago".toList
    ["nginx\tlatest\t605c\t2 weeks ago\t141MB".toList]
    ["busybox\t1\tbeef\t1 day ago\t4MB".toList] (by decide) (by decide)).2.1

/-- C15, as stated, fails: the non-empty line
`repo<TAB>tag<TAB>id<TAB>created<TAB>` splits on tabs into 5 fields, the fifth
one empty, and yields no record, because the fifth read finds nothing left to
extract. -/
theorem image_acceptance_empty_size_counterexample :
    "repo\ttag\tid\tcreated\t".toList.splitOn '\t'
        = ["repo".toList, "tag".toList, "id".toList, "created".toList, []] ∧
      "repo\ttag\tid\tcreated\t".toList ≠ [] ∧
      parseImageLine "repo\ttag\tid\tcreated\t".toList = none ∧
      parseImagesText "REPOSITORY\tTAG\tIMAGE ID\tCREATED\tSIZE\nrepo\ttag\tid\tcreated\t\n".toList
        = [] := by
  decide

/-- C15, amended: an image data line that splits on tabs into 6 or more
fields, or into exactly 5 fields with a non-empty fifth field, produces exactly
one record, made of the first five fields in order, at the position of the
line; the other fields may be empty and no field content is inspected. -/
theorem image_required_fields_acceptance (text header line f1 f2 f3 f4 f5 : Str)
    (more pre post : List Str)
    (hlines : text.splitOn '\n' = header :: (pre ++ line :: post))
    (hfields : line.splitOn '\t' = f1 :: f2 :: f3 :: f4 :: f5 :: more)
    (hlast : more ≠ [] ∨ f5 ≠ []) :
    parseImageLine line = some ⟨f1, f2, f3, f4, f5⟩ ∧
      parseImagesText text
        = pre.filterMap parseImageLine ++ [⟨f1, f2, f3, f4, f5⟩]
          ++ post.filterMap parseImageLine := by
  have hrec : parseImageLine line = some ⟨f1, f2, f3, f4, f5⟩ := by
    cases more with
    | nil =>
      rcases hlast with h | h
      · exact absurd rfl h
      · exact parseImageLine_of_five line f1 f2 f3 f4 f5 hfields h
    | cons f6 rest => exact parseImageLine_of_six line f1 f2 f3 f4 f5 f6 rest hfields
  refine ⟨hrec, ?_⟩
  rw [parseImagesText_of_lines text header _ hlines, List.filterMap_append,
    List.filterMap_cons, hrec]
  simp

/-- Witness for C15 amended: an image line whose first four fields are empty. -/
theorem image_required_fields_acceptance_witness :
    parseImagesText "H\n\t\t\t\t141MB".toList = [⟨[], [], [], [], "141MB".toList⟩] :=
  (image_required_fields_acceptance "H\n\t\t\t\t141MB".toList "H".toList
    "\t\t\t\t141MB".toList [] [] [] [] "141MB".toList [] [] []
    (by decide) (by decide) (Or.inr (by decide))).2

/-! ## The version line of the summary -/

theorem digitChar_ne_newline (m : Nat) (h : m < 10) : Nat.digitChar m ≠ '\n' := by
  interval_cases m <;> decide

theorem not_mem_toDigitsCore (fuel n : Nat) (ds : List Char) (h : '\n' ∉ ds) :
    '\n' ∉ Nat.toDigitsCore 10 fuel n ds := by
  induction fuel generalizing n ds with
  | zero => simpa [Nat.toDigitsCore] using h
  | succ k ih =>
    have hcons : '\n' ∉ Nat.digitChar (n % 10) :: ds := by
      simp only [List.mem_cons, not_or]
      exact ⟨fun heq => digitChar_ne_newline _ (Nat.mod_lt n (by decide)) heq.symm, h⟩
    simp only [Nat.toDigitsCore]
    split
    · exact hcons
    · exact ih _ _ hcons

theorem not_mem_showNat (n : Nat) : '\n' ∉ showNat n := by
  have h : showNat n = Nat.toDigitsCore 10 (n + 1) n [] := rfl
  rw [h]
  exact not_mem_toDigitsCore _ _ _ (by simp)

theorem not_mem_label_showNat (label : Str) (n : Nat) (h : '\n' ∉ label) :
    '\n' ∉ label ++ showNat n := by
  simp only [List.mem_append, not_or]
  exact ⟨h, not_mem_showNat n⟩

/-- The lines of the summary up to the version line, followed by the lines of
what the version query and the closing newline add. -/
theorem displaySystemSummary_lines (cs : List ContainerInfo) (imgs : List ImageInfo)
    (version : Except String Str) :
    (displaySystemSummary cs imgs version).splitOn '\n'
      = summaryTitleLine :: ruleLine :: (summaryCountLines cs imgs ++
          [] :: (versionLine version ++ ['\n']).splitOn '\n') := by
  have hshape : displaySystemSummary cs imgs version
      = summaryTitleLine ++ '\n' :: (ruleLine ++ '\n' ::
          (("Total Containers: ".toList ++ showNat cs.length) ++ '\n' ::
          (("  - Running: ".toList ++ showNat (countStatus cs).1) ++ '\n' ::
          (("  - Stopped: ".toList ++ showNat (countStatus cs).2) ++ '\n' ::
          (("Total Images: ".toList ++ showNat imgs.length) ++ '\n' ::
          ([] ++ '\n' :: (versionLine version ++ ['\n']))))))) := by
    have h1 : "📊 SYSTEM SUMMARY\n".toList = summaryTitleLine ++ ['\n'] := by decide
    have h2 : sectionRule = ruleLine ++ ['\n'] := by decide
    have h3 : "\n".toList = ['\n'] := rfl
    have h4 : "\n\n".toList = ['\n', '\n'] := rfl
    rw [displaySystemSummary, h1, h2, h3, h4]
    simp only [List.append_assoc, List.singleton_append, List.cons_append, List.nil_append]
  rw [hshape, splitOn_first_line _ _ (by decide), splitOn_first_line _ _ (by decide),
    splitOn_first_line _ _ (not_mem_label_showNat _ _ (by decide)),
    splitOn_first_line _ _ (not_mem_label_showNat _ _ (by decide)),
    splitOn_first_line _ _ (not_mem_label_showNat _ _ (by decide)),
    splitOn_first_line _ _ (not_mem_label_showNat _ _ (by decide)),
    splitOn_first_line _ _ (by simp)]
  rfl

/-- C12, as stated, fails: when the version query runs and returns no output,
nothing is thrown, and the version line of the summary is `Docker Version: `
followed by the empty string. -/
theorem version_text_empty_counterexample :
    versionLine (.ok []) = "Docker Version: ".toList ∧
      (displaySystemSummary [] [] (.ok [])).splitOn '\n'
        = [summaryTitleLine, ruleLine, "Total Containers: 0".toList,
            "  - Running: 0".toList, "  - Stopped: 0".toList, "Total Images: 0".toList,
            [], "Docker Version: ".toList, []] := by
  decide

/-- C12, amended: when the version query throws, the summary still prints the
container and image counts, its version line reads exactly
`Docker Version: Unable to determine`, and the summary returns its text.  The
text shown after `Docker Version: ` is that placeholder when the query throws
and the output of the query when it returns; it is non-empty unless the query
returns an empty output. -/
theorem version_lookup_failure (cs : List ContainerInfo) (imgs : List ImageInfo)
    (what : String) (version : Except String Str)
    (hv : ∀ output, version = .ok output → output ≠ []) :
    (displaySystemSummary cs imgs (.error what)).splitOn '\n'
        = summaryTitleLine :: ruleLine :: (summaryCountLines cs imgs ++
            [[], "Docker Version: Unable to determine".toList, [], []]) ∧
      (summaryCountLines cs imgs).length = 4 ∧
      (∀ output, versionLine (.ok output) = "Docker Version: ".toList ++ output) ∧
      (∃ shown, shown ≠ [] ∧ versionLine version = "Docker Version: ".toList ++ shown) := by
  refine ⟨?_, rfl, fun _ => rfl, ?_⟩
  · rw [displaySystemSummary_lines]
    rfl
  · cases version with
    | error e => exact ⟨"Unable to determine\n".toList, by decide, rfl⟩
    | ok output => exact ⟨output, hv output rfl, rfl⟩

/-- Witness for C12 amended: a version query that returns a version text. -/
theorem version_lookup_failure_witness :
    ∃ shown, shown ≠ [] ∧
      versionLine (.ok "Docker version 24.0.7, build afdd53b\n".toList)
        = "Docker Version: ".toList ++ shown :=
  (version_lookup_failure [] [] "popen" (.ok "Docker version 24.0.7, build afdd53b\n".toList)
    (fun output h => by
      cases h
      decide)).2.2.2

/-! ## Orchestration properties -/

/-- C16: when the availability probe returns no output, or cannot be executed,
`generateReport` prints the banner and the not-available message and nothing
else, executes no command but the probe, and writes no report file; `main`
without arguments then ends with exit code 0. -/
theorem unavailable_runtime (env : Env) (r : DockerReporter) (programName : Str)
    (h : env.probe = .ok [] ∨ ∃ what, env.probe = .error what) :
    generateReport env r
        = { out := reportBanner ++ "❌ Docker is not available on this system.\n".toList ++
              "Please install Docker to use this reporting tool.\n".toList,
            err := [], file := none, commands := [Command.dockerVersion] } ∧
      (main programName [] env).1 = 0 ∧
      (main programName [] env).2.file = none ∧
      (main programName [] env).2.commands = [Command.dockerVersion] := by
  have hav : isDockerAvailable env.probe = false := by
    rcases h with h | ⟨what, h⟩ <;> rw [h] <;> rfl
  have hgen : ∀ r', generateReport env r'
      = { out := reportBanner ++ "❌ Docker is not available on this system.\n".toList ++
            "Please install Docker to use this reporting tool.\n".toList,
          err := [], file := none, commands := [Command.dockerVersion] } := by
    intro r'
    simp only [generateReport, hav, Bool.not_false, if_true]
  refine ⟨hgen r, ?_, ?_, ?_⟩
  · rfl
  · simp only [main, mainWith, hgen]
  · simp only [main, mainWith, hgen]

/-- Witness for C16: a probe that returns no output, with every other command
ready to answer. -/
theorem unavailable_runtime_witness :
    (generateReport
        { probe := .ok [], psOutput := .ok "H\na\tb\tc\td\te".toList,
          imagesOutput := .ok "H\na\tb\tc\td\te".toList, version := .ok "v\n".toList,
          fileOpens := true, date := "Oct 30 2026".toList, time := "10:00:00".toList }
        ⟨[], []⟩).commands = [Command.dockerVersion] ∧
      (generateReport
        { probe := .ok [], psOutput := .ok "H\na\tb\tc\td\te".toList,
          imagesOutput := .ok "H\na\tb\tc\td\te".toList, version := .ok "v\n".toList,
          fileOpens := true, date := "Oct 30 2026".toList, time := "10:00:00".toList }
        ⟨[], []⟩).file = none :=
  have h := (unavailable_runtime
    { probe := .ok [], psOutput := .ok "H\na\tb\tc\td\te".toList,
      imagesOutput := .ok "H\na\tb\tc\td\te".toList, version := .ok "v\n".toList,
      fileOpens := true, date := "Oct 30 2026".toList, time := "10:00:00".toList }
    ⟨[], []⟩ "docker_report".toList (Or.inl rfl)).1
  ⟨congrArg Output.commands h, congrArg Output.file h⟩

/-- C17: with a first argument, the exit code is 0 when that argument is
exactly `-h`, `--help`, `-v` or `--version` and 1 for any other string, and no
report is generated (no command is executed, no file is written; only the usage
text, the version text or the unknown-option diagnostic is printed).  Without
arguments the report runs: `main` leaves behind exactly what `generateReport`
on a fresh reporter leaves behind, its commands and its file included, followed
by the completion message, and the exit code is 0 when the report call returns
and 1 when an exception escapes it.  The report call as modelled returns in
every environment, so the exit code is then 0, also when the report file cannot
be opened. -/
theorem cli_exit_codes (programName option what : Str) (rest : List Str)
    (report : ReportOutcome) (o : Output) (env : Env) :
    (mainWith programName (option :: rest) report).1
        = (if option = "-h".toList ∨ option = "--help".toList ∨ option = "-v".toList ∨
              option = "--version".toList then 0 else 1) ∧
      (mainWith programName (option :: rest) report).2.commands = [] ∧
      (mainWith programName (option :: rest) report).2.file = none ∧
      main programName (option :: rest) env
        = mainWith programName (option :: rest) (.returned (generateReport env ⟨[], []⟩)) ∧
      (mainWith programName [] (.returned o)).1 = 0 ∧
      (mainWith programName [] (.threw o what)).1 = 1 ∧
      (mainWith programName [] (.threwOther o)).1 = 1 ∧
      (main programName [] env).1 = 0 ∧
      (main programName [] { env with fileOpens := false }).1 = 0 ∧
      (main programName [] { env with fileOpens := false }).2.file = none ∧
      (mainWith programName (option :: rest) report).2
        = (if option = "-h".toList ∨ option = "--help".toList then
            { out := displayUsage programName, err := [], file := none, commands := [] }
          else if option = "-v".toList ∨ option = "--version".toList then
            { out := displayVersion, err := [], file := none, commands := [] }
          else
            { out := [],
              err := "Unknown option: ".toList ++ option ++ "\n".toList ++
                "Use --help for usage information.\n".toList,
              file := none, commands := [] }) ∧
      main programName [] env
        = (0, { out := (generateReport env ⟨[], []⟩).out ++
                  "Report generation completed successfully! ✅\n".toList,
                err := (generateReport env ⟨[], []⟩).err,
                file := (generateReport env ⟨[], []⟩).file,
                commands := (generateReport env ⟨[], []⟩).commands }) ∧
      (main programName [] env).2.commands
        = (if isDockerAvailable env.probe then
            [Command.dockerVersion, Command.dockerPs, Command.dockerImages,
              Command.dockerVersion]
          else [Command.dockerVersion]) ∧
      (main programName [] env).2.file
        = (if isDockerAvailable env.probe && env.fileOpens then
            some (reportFileText env.date env.time
              (parseImages env.imagesOutput (parseContainers env.psOutput ⟨[], []⟩)).containers
              (parseImages env.imagesOutput (parseContainers env.psOutput ⟨[], []⟩)).images)
          else none) ∧
      (main programName [] env).2.out
        = (if isDockerAvailable env.probe then
            reportBanner ++ "✅ Docker is available on this system.\n\n".toList ++
              displayContainerReport
                (parseImages env.imagesOutput (parseContainers env.psOutput ⟨[], []⟩)).containers ++
              displayImageReport
                (parseImages env.imagesOutput (parseContainers env.psOutput ⟨[], []⟩)).images ++
              displaySystemSummary
                (parseImages env.imagesOutput (parseContainers env.psOutput ⟨[], []⟩)).containers
                (parseImages env.imagesOutput (parseContainers env.psOutput ⟨[], []⟩)).images
                env.version ++
              (if env.fileOpens then
                "📄 Detailed report saved to: docker_report.txt\n\n".toList else [])
          else
            reportBanner ++ "❌ Docker is not available on this system.\n".toList ++
              "Please install Docker to use this reporting tool.\n".toList) ++
          "Report generation completed successfully! ✅\n".toList ∧
      mainWith programName [] (.returned o)
        = (0, { out := o.out ++ "Report generation completed successfully! ✅\n".toList,
                err := o.err, file := o.file, commands := o.commands }) ∧
      mainWith programName [] (.threw o what)
        = (1, { out := o.out, err := o.err ++ "❌ Error: ".toList ++ what ++ "\n".toList,
                file := o.file, commands := o.commands }) ∧
      mainWith programName [] (.threwOther o)
        = (1, { out := o.out, err := o.err ++ "❌ An unknown error occurred.\n".toList,
                file := o.file, commands := o.commands }) := by
  have hargs : (mainWith programName (option :: rest) report).1
        = (if option = "-h".toList ∨ option = "--help".toList ∨ option = "-v".toList ∨
              option = "--version".toList then 0 else 1) ∧
      (mainWith programName (option :: rest) report).2.commands = [] ∧
      (mainWith programName (option :: rest) report).2.file = none := by
    simp only [mainWith, Bool.or_eq_true, beq_iff_eq]
    by_cases ha : option = "-h".toList ∨ option = "--help".toList
    · rw [if_pos ha, if_pos (by tauto)]
      exact ⟨rfl, rfl, rfl⟩
    · by_cases hb : option = "-v".toList ∨ option = "--version".toList
      · rw [if_neg ha, if_pos hb, if_pos (by tauto)]
        exact ⟨rfl, rfl, rfl⟩
      · rw [if_neg ha, if_neg hb, if_neg (by tauto)]
        exact ⟨rfl, rfl, rfl⟩
  have hfull : (mainWith programName (option :: rest) report).2
        = (if option = "-h".toList ∨ option = "--help".toList then
            { out := displayUsage programName, err := [], file := none, commands := [] }
          else if option = "-v".toList ∨ option = "--version".toList then
            { out := displayVersion, err := [], file := none, commands := [] }
          else
            { out := [],
              err := "Unknown option: ".toList ++ option ++ "\n".toList ++
                "Use --help for usage information.\n".toList,
              file := none, commands := [] }) := by
    simp only [mainWith, Bool.or_eq_true, beq_iff_eq]
    by_cases ha : option = "-h".toList ∨ option = "--help".toList
    · rw [if_pos ha, if_pos ha]
    · by_cases hb : option = "-v".toList ∨ option = "--version".toList
      · rw [if_neg ha, if_pos hb, if_neg ha, if_pos hb]
      · rw [if_neg ha, if_neg hb, if_neg ha, if_neg hb]
  have hlast : (main programName [] { env with fileOpens := false }).2.file = none := by
    simp only [main, mainWith, generateReport, generateReportFile]
    split <;> rfl
  refine ⟨hargs.1, hargs.2.1, hargs.2.2, rfl, rfl, rfl, rfl, rfl, rfl, hlast, hfull, rfl,
    ?_, ?_, ?_, rfl, rfl, rfl⟩
  · cases hav : isDockerAvailable env.probe
    · simp only [main, mainWith, generateReport, hav, Bool.not_false, if_true,
        Bool.false_eq_true, if_false]
    · simp only [main, mainWith, generateReport, hav, Bool.not_true, Bool.false_eq_true,
        if_false, if_true]
  · cases hav : isDockerAvailable env.probe
    · simp only [main, mainWith, generateReport, hav, Bool.not_false, if_true,
        Bool.false_and, Bool.false_eq_true, if_false]
    · cases hfo : env.fileOpens
      · simp only [main, mainWith, generateReport, generateReportFile, hav, hfo,
          Bool.not_true, Bool.not_false, Bool.false_eq_true, if_false, if_true,
          Bool.and_false]
      · simp only [main, mainWith, generateReport, generateReportFile, hav, hfo,
          Bool.not_true, Bool.false_eq_true, if_false, if_true, Bool.and_self]
  · cases hav : isDockerAvailable env.probe
    · simp only [main, mainWith, generateReport, hav, Bool.not_false, if_true,
        Bool.false_eq_true, if_false]
    · cases hfo : env.fileOpens
      · simp only [main, mainWith, generateReport, generateReportFile, hav, hfo,
          Bool.not_true, Bool.not_false, Bool.false_eq_true, if_false, if_true,
          List.append_nil]
      · simp only [main, mainWith, generateReport, generateReportFile, hav, hfo,
          Bool.not_true, Bool.false_eq_true, if_false, if_true]

/-- C18, the code at a table of one image record: the container table has a
separator line of exactly 80 dashes, but the image table's separator line is
five spaces followed by 70 dashes, because the header row ends with the text
`SIZE` and its newline written under `std::setw(10)`. -/
theorem image_separator_line_has_leading_spaces :
    (displayContainerReport
        [⟨"abc123456789".toList, "web".toList, "nginx:latest".toList,
          "Up 5 minutes".toList, "0.0.0.0:80->80/tcp".toList⟩]).splitOn '\n'
      = [containerTitleLine, ruleLine, containerHeaderLine, List.replicate 80 '-',
          "abc12345678 web                 nginx:latest        Up 5 minutes   0.0.0.0:80->80/tcp".toList,
          [], []] ∧
    (displayImageReport
        [⟨"nginx".toList, "latest".toList, "605c77e624dd".toList,
          "2 weeks ago".toList, "141MB".toList⟩]).splitOn '\n'
      = [imageTitleLine, ruleLine, imageHeaderLine,
          List.replicate 5 ' ' ++ List.replicate 70 '-',
          "nginx                    latest         605c77e624d 141MB".toList, [], []] ∧
    List.replicate 5 ' ' ++ List.replicate 70 '-' ≠ List.replicate 70 '-' := by
  decide

/-! ## Parsed records in the tables -/

theorem parseContainersText_field_chars (text : Str) (c : ContainerInfo)
    (hc : c ∈ parseContainersText text) (x : Char)
    (hx : x ∈ c.id ∨ x ∈ c.name ∨ x ∈ c.image ∨ x ∈ c.status ∨ x ∈ c.ports) :
    x ≠ '\t' ∧ x ≠ '\n' := by
  rw [parseContainersText_eq, List.mem_filterMap] at hc
  obtain ⟨line, hline, hparse⟩ := hc
  have hfree := not_mem_of_mem_splitOn '\n' text line (List.mem_of_mem_tail hline)
  obtain ⟨hin, htab⟩ := parseContainerLine_mem line c hparse x hx
  refine ⟨htab, ?_⟩
  rintro rfl
  exact hfree hin

theorem parseImagesText_field_chars (text : Str) (i : ImageInfo)
    (hi : i ∈ parseImagesText text) (x : Char)
    (hx : x ∈ i.repository ∨ x ∈ i.tag ∨ x ∈ i.imageId ∨ x ∈ i.created ∨ x ∈ i.size) :
    x ≠ '\t' ∧ x ≠ '\n' := by
  rw [parseImagesText_eq, List.mem_filterMap] at hi
  obtain ⟨line, hline, hparse⟩ := hi
  have hfree := not_mem_of_mem_splitOn '\n' text line (List.mem_of_mem_tail hline)
  obtain ⟨hin, htab⟩ := parseImageLine_mem line i hparse x hx
  refine ⟨htab, ?_⟩
  rintro rfl
  exact hfree hin

theorem splitOn_row (line : Str) (h : '\n' ∉ line) :
    (line ++ ['\n']).splitOn '\n' = [line, []] := by
  rw [splitOn_first_line line [] h]
  rfl

/-- C20: no field of a record produced by either parser holds a tab or a
newline character; so the table row of a parsed record is a single line closed
by its newline, and the table of a non-empty parsed sequence is the title, the
rule, the header line, the separator line, then exactly one line per record in
order, then the closing blank line. -/
theorem parsed_fields_single_line (text : Str) :
    (∀ c ∈ parseContainersText text, ∀ x,
        x ∈ c.id ∨ x ∈ c.name ∨ x ∈ c.image ∨ x ∈ c.status ∨ x ∈ c.ports →
        x ≠ '\t' ∧ x ≠ '\n') ∧
      (∀ i ∈ parseImagesText text, ∀ x,
        x ∈ i.repository ∨ x ∈ i.tag ∨ x ∈ i.imageId ∨ x ∈ i.created ∨ x ∈ i.size →
        x ≠ '\t' ∧ x ≠ '\n') ∧
      (∀ c ∈ parseContainersText text,
        (containerRow c).splitOn '\n' = [containerRowLine c, []]) ∧
      (∀ i ∈ parseImagesText text, (imageRow i).splitOn '\n' = [imageRowLine i, []]) ∧
      (parseContainersText text ≠ [] →
        (displayContainerReport (parseContainersText text)).splitOn '\n'
            = containerTitleLine :: ruleLine :: containerHeaderLine :: List.replicate 80 '-' ::
                ((parseContainersText text).map containerRowLine ++ [[], []]) ∧
          ((parseContainersText text).map containerRowLine).length
            = (parseContainersText text).length) ∧
      (parseImagesText text ≠ [] →
        (displayImageReport (parseImagesText text)).splitOn '\n'
            = imageTitleLine :: ruleLine :: imageHeaderLine ::
                (List.replicate 5 ' ' ++ List.replicate 70 '-') ::
                ((parseImagesText text).map imageRowLine ++ [[], []]) ∧
          ((parseImagesText text).map imageRowLine).length
            = (parseImagesText text).length) := by
  refine ⟨fun c hc x hx => parseContainersText_field_chars text c hc x hx,
    fun i hi x hx => parseImagesText_field_chars text i hi x hx, ?_, ?_, ?_, ?_⟩
  · intro c hc
    rw [containerRow_eq_line]
    exact splitOn_row _ (not_mem_containerRowLine c (parseContainersText_noNewline text c hc))
  · intro i hi
    rw [imageRow_eq_line]
    exact splitOn_row _ (not_mem_imageRowLine i (parseImagesText_noNewline text i hi))
  · intro hne
    exact ⟨displayContainerReport_lines _ hne (parseContainersText_noNewline text),
      List.length_map _ _⟩
  · intro hne
    exact ⟨displayImageReport_lines _ hne (parseImagesText_noNewline text),
      List.length_map _ _⟩

end DockerReport
